import Mathlib

/-!
Verification of the core of `agentic-graphql`: the tool-selection dispatch
loop (`src/graphql_agent/prompt_router.py`), the MCP server binding with its
lazily-loaded capability cache, the JSON-RPC protocol helpers
(`src/graphql_agent/types/mcp_2025_08_16.py`) and the MCP client
(`src/graphql_agent/services/mcp.py`, `src/graphql_agent/services/base.py`).

The Python source is embedded shallowly: pure logic becomes Lean functions,
the external reasoning oracle and the remote tool servers are supplied as input
scripts (a function from consultation/invocation index to the response the
external peer gives), exceptions become `Except`, and the I/O actions the
code performs are recorded in an explicit ghost event trace in the order in
which the code reaches them.  Python floats (the suggestion confidence)
become `Rat`.
-/

namespace AgenticGraphQL

/-! ## A small JSON value model (payloads on the JSON-RPC wire) -/

/-- JSON values as produced by `response.json()` and built by the request
helpers.  Objects keep insertion order, like Python dicts. -/
inductive Json where
  | null : Json
  | s (value : String) : Json
  | n (value : Int) : Json
  | b (value : Bool) : Json
  | arr (items : List Json) : Json
  | obj (fields : List (String × Json)) : Json

/-- Dictionary lookup: `payload["key"]` guarded by `"key" in payload`;
`none` when the value is not an object or the key is absent. -/
def Json.get : Json → String → Option Json
  | .obj fields, key => fields.lookup key
  | _, _ => none

/-! ## Tokenisation (`prompt_router.py` lines 20 and 43-44)

`PROMPT_TOKEN_RE = re.compile(r"[a-z0-9]+", re.IGNORECASE)` and
`_tokenise` lower-cases the prompt and returns the maximal runs matched by
the regex, lower-cased (again, a no-op). -/

/-- Characters matched by the token regex character class `[a-z0-9]`
(applied after lower-casing). -/
def isTokenChar (c : Char) : Bool :=
  ( 'a' ≤ c && c ≤ 'z') || ( '0' ≤ c && c ≤ '9')

/-- Split a character list into the maximal runs of token characters,
accumulating the current (reversed) run. -/
def tokeniseAux : List Char → List Char → List (List Char)
  | [], cur => if cur = [] then [] else [cur.reverse]
  | c :: rest, cur =>
    if isTokenChar c then tokeniseAux rest (c :: cur)
    else if cur = [] then tokeniseAux rest []
    else cur.reverse :: tokeniseAux rest []

/-- `_tokenise(value)`: all `[a-z0-9]+` matches of `value.lower()`. -/
def tokenise (value : String) : List String :=
  (tokeniseAux (value.data.map Char.toLower) []).map fun cs => String.mk cs

/-- The whitespace characters removed by Python `str.strip()` (the ASCII
ones; the prompts at issue are ASCII). -/
def isPyWhitespace (c : Char) : Bool :=
  c = ' ' || c = '\t' || c = '\n' || c = '\r' || c = '\x0b' || c = '\x0c'

/-- `str.strip()` on the underlying characters. -/
def pyStripList (cs : List Char) : List Char :=
  ((cs.dropWhile isPyWhitespace).reverse.dropWhile isPyWhitespace).reverse

/-- `prompt.strip()` as performed by `PromptRouter.dispatch`. -/
def pyStrip (s : String) : String := String.mk (pyStripList s.data)

/-! ## The dispatch loop data model (`prompt_router.py`) -/

/-- `ToolSuggestion` (`services/ai_analyzer.py` lines 19-28).  The
structured `arguments` value is carried as its (string) representation;
the loop only threads it through into outcome metadata. -/
structure ToolSuggestion where
  tool_name : String
  internal_final_outcome : String
  server_name : String
  confidence : Rat
  reasoning : String
  arguments : String
deriving DecidableEq, Repr

/-- A metadata value appearing in a `PromptOutcome.metadata` dict. -/
inductive MetaValue where
  | str (s : String)
  | rat (q : Rat)
  | nat (n : Nat)
deriving DecidableEq, Repr

/-- `PromptOutcome` (`prompt_router.py` lines 23-28); the metadata mapping
is an insertion-ordered association list like the Python dict literals. -/
structure PromptOutcome where
  content : String
  metadata : List (String × MetaValue)
deriving DecidableEq, Repr

/-- The slice of `MCPServerBinding` that `SchemaAwareMCPStrategy.execute`
reads: the configured server name (and description). -/
structure MCPServerBinding where
  name : String
  description : Option String
deriving DecidableEq, Repr

/-- Ghost trace of the I/O actions the strategy performs, in program
order: one capability load per binding while building `available_servers`,
one oracle consultation per `analyze_prompt` call, one tool invocation per
`binding.client.handle` call. -/
inductive Event where
  | capabilityLoad (server : String)
  | oracleConsult
  | toolInvoke (server : String) (tool : String)
deriving DecidableEq, Repr

/-- Number of oracle consultations in a trace. -/
def consultCount (evs : List Event) : Nat :=
  evs.countP fun e => match e with | .oracleConsult => true | _ => false

/-- Number of remote tool invocations in a trace. -/
def invokeCount (evs : List Event) : Nat :=
  evs.countP fun e => match e with | .toolInvoke _ _ => true | _ => false

/-- Metadata lookup by key. -/
def metaLookup (o : PromptOutcome) (key : String) : Option MetaValue :=
  o.metadata.lookup key

/-! ## The outcomes built by `SchemaAwareMCPStrategy.execute` -/

/-- The fixed user-facing apology (lines 150 and 173). -/
def apologyContent : String :=
  "Sorry, I couldn\x27t find what you\x27re looking for."

/-- Outcome of lines 203-209: the loop exhausted its 10 attempts. -/
def exhaustedOutcome (ctx : String) : PromptOutcome :=
  { content := "Could not find the results after a lot of attempts, please narrow down the query"
    metadata := [("intent", .str "max_attempt_exceeded"), ("context_gathered", .str ctx)] }

/-- Outcome of lines 145-155 when `ai_suggestion` is `None`. -/
def noSuggestionOutcome : PromptOutcome :=
  { content := apologyContent
    metadata := [("intent", .str "no_suggestion"), ("confidence", .rat 0)] }

/-- Outcome of lines 145-155 when the suggestion's confidence is below the
threshold: the metadata confidence is the suggestion's own confidence. -/
def lowConfidenceOutcome (s : ToolSuggestion) : PromptOutcome :=
  { content := apologyContent
    metadata := [("intent", .str "low_confidence"), ("confidence", .rat s.confidence)] }

/-- Outcome of lines 171-178: no configured server matches. -/
def noServerOutcome : PromptOutcome :=
  { content := apologyContent
    metadata := [("intent", .str "no_mcp_server_found"), ("confidence", .rat 0)] }

/-- Outcome of lines 135-143: the suggestion carries a final answer. -/
def finishedOutcome (s : ToolSuggestion) (numTries : Nat) : PromptOutcome :=
  { content := s.internal_final_outcome
    metadata := [("intent", .str "finished"), ("confidence", .rat s.confidence),
                 ("num_tries", .nat numTries)] }

/-- Outcome of lines 191-201: the tool invocation raised. -/
def failedOutcome (s : ToolSuggestion) (details : String) : PromptOutcome :=
  { content := "Something went wrong while querying the MCP server"
    metadata := [("intent", .str "mcp_server_failed"), ("tool_name", .str s.tool_name),
                 ("arguments", .str s.arguments), ("details", .str details),
                 ("confidence", .rat 0)] }

/-- The context line appended after a successful tool call (lines 186-190). -/
def contextLine (s : ToolSuggestion) (result : String) : String :=
  "\n" ++ "Response from server " ++ s.server_name ++ " and tool " ++ s.tool_name ++ ": " ++ result

/-! ## One iteration of the `while max_attempts` loop (lines 128-201) -/

/-- What one loop iteration decides: either the loop returns an outcome
(`halt`, with the events the iteration performed after its consultation
event), or it appends a context line from a successful tool call and
continues (`next`). -/
inductive IterResult where
  | halt (outcome : PromptOutcome) (events : List Event)
  | next (line : String) (events : List Event)
deriving Repr

/-- `max_attempts = 10` (line 125). -/
def MAX_ATTEMPTS : Nat := 10

/-- One iteration body: `sug` is what `analyze_prompt` returned for this
consultation, `toolRes` what `binding.client.handle` would give for this
invocation (only reached on the invocation path), `numTries` the value
`10 - max_attempts` at this point. -/
def runIteration (servers : List MCPServerBinding) (sug : Option ToolSuggestion)
    (toolRes : Except String String) (numTries : Nat) : IterResult :=
  match sug with
  | none => .halt noSuggestionOutcome [.oracleConsult]
  | some s =>
    if s.internal_final_outcome ≠ "" then
      .halt (finishedOutcome s numTries) [.oracleConsult]
    else if s.confidence < 0.5 then
      .halt (lowConfidenceOutcome s) [.oracleConsult]
    else
      match servers.find? (fun b => b.name.toLower == s.server_name.toLower) with
      | none => .halt noServerOutcome [.oracleConsult]
      | some _ =>
        match toolRes with
        | .error ex =>
          .halt (failedOutcome s ex) [.oracleConsult, .toolInvoke s.server_name s.tool_name]
        | .ok result =>
          .next (contextLine s result) [.oracleConsult, .toolInvoke s.server_name s.tool_name]

/-- Result of the whole loop: the returned outcome, the event trace, and
(ghost) the final value of `existing_context`. -/
structure LoopResult where
  outcome : PromptOutcome
  events : List Event
  context : String
deriving Repr

/-- The `while max_attempts` loop.  `fuel` is the remaining value of
`max_attempts` before the decrement; `nC` and `nI` index the oracle and
tool scripts (the number of consultations/invocations already made). -/
def loopGo (oracle : Nat → Option ToolSuggestion) (tool : Nat → Except String String)
    (servers : List MCPServerBinding) : Nat → Nat → Nat → String → LoopResult
  | 0, _, _, ctx => ⟨exhaustedOutcome ctx, [], ctx⟩
  | fuel + 1, nC, nI, ctx =>
    match runIteration servers (oracle nC) (tool nI) (MAX_ATTEMPTS - fuel) with
    | .halt outcome evs => ⟨outcome, evs, ctx⟩
    | .next line evs =>
      let r := loopGo oracle tool servers fuel (nC + 1) (nI + 1) (ctx ++ line)
      ⟨r.outcome, evs ++ r.events, r.context⟩

/-- Result of `SchemaAwareMCPStrategy.execute`: either the synchronous
`ValueError` for a token-less prompt, or a completed loop. -/
inductive StrategyResult where
  | invalidPrompt
  | completed (r : LoopResult)
deriving Repr

/-- `execute` together with its ghost event trace. -/
structure StrategyTrace where
  result : StrategyResult
  events : List Event
deriving Repr

/-- `SchemaAwareMCPStrategy.execute` (lines 108-209): tokenise and reject
token-less prompts before any I/O; otherwise load every binding's
capabilities (building `available_servers`) and run the loop with
`max_attempts = 10` and `existing_context = ""`. -/
def executeStrategy (oracle : Nat → Option ToolSuggestion)
    (tool : Nat → Except String String) (servers : List MCPServerBinding)
    (prompt : String) : StrategyTrace :=
  if tokenise prompt = [] then ⟨.invalidPrompt, []⟩
  else
    let loads := servers.map fun b => Event.capabilityLoad b.name
    let r := loopGo oracle tool servers MAX_ATTEMPTS 0 0 ""
    ⟨.completed r, loads ++ r.events⟩

/-- Result of `PromptRouter.dispatch`: a `ValueError` surfaced to the
caller, or the strategy's outcome. -/
inductive DispatchResult where
  | validationError (msg : String)
  | outcome (r : LoopResult)
deriving Repr

/-- `dispatch` together with its ghost event trace. -/
structure DispatchTrace where
  result : DispatchResult
  events : List Event
deriving Repr

/-- `PromptRouter.dispatch` (lines 218-240): strip the prompt, reject an
empty result, then run the single always-matching
`SchemaAwareMCPStrategy` (built by `build_router`), re-raising its
`ValueError`. -/
def dispatch (oracle : Nat → Option ToolSuggestion)
    (tool : Nat → Except String String) (servers : List MCPServerBinding)
    (prompt : String) : DispatchTrace :=
  let normalized := pyStrip prompt
  if normalized = "" then ⟨.validationError "Prompt must not be empty", []⟩
  else
    match executeStrategy oracle tool servers normalized with
    | ⟨.invalidPrompt, evs⟩ => ⟨.validationError "Prompt must contain at least one token", evs⟩
    | ⟨.completed r, evs⟩ => ⟨.outcome r, evs⟩

/-! ## `ServiceClient` (`services/base.py` lines 15-37)

The constructor strips trailing slashes off the base URL and stores the
`auth_token` keyword argument on the client object; `_headers` builds the
request headers from that stored token: a single `Authorization` bearer
header when the token is truthy (a non-empty string), nothing otherwise. -/

/-- The client state set up by `ServiceClient.__init__`. -/
structure ServiceClient where
  base_url : String
  auth_token : Option String
deriving DecidableEq, Repr

/-- `base_url.rstrip("/")`. -/
def rstripSlash (s : String) : String :=
  String.mk (s.data.reverse.dropWhile (fun c => c = '/')).reverse

/-- `ServiceClient.__init__(base_url, auth_token)`. -/
def initServiceClient (baseUrl : String) (authToken : Option String) : ServiceClient :=
  { base_url := rstripSlash baseUrl, auth_token := authToken }

/-- `ServiceClient._headers()`: Python truthiness makes `None` and the
empty string both yield no header. -/
def serviceHeaders (c : ServiceClient) : List (String × String) :=
  match c.auth_token with
  | some tok => if tok = "" then [] else [("Authorization", "Bearer " ++ tok)]
  | none => []

/-- The slice of `Settings` (`config.py`) the client wiring reads. -/
structure Settings where
  api_auth_token : Option String
deriving DecidableEq, Repr

/-- `ApplicationState.__init__` (`main.py` lines 29-34): each MCP client is
constructed once at startup with the process-wide settings token. -/
def appStateClient (settings : Settings) (serverBaseUrl : String) : ServiceClient :=
  initServiceClient serverBaseUrl settings.api_auth_token

/-! ## Protocol constants and request builders
(`types/mcp_2025_08_16.py`) -/

/-- `JSONRPC_VERSION = "2.0"`. -/
def JSONRPC_VERSION : String := "2.0"

/-- `LATEST_PROTOCOL_VERSION = "2025-06-18"`. -/
def LATEST_PROTOCOL_VERSION : String := "2025-06-18"

/-- A JSON-RPC request envelope as the builders produce it. -/
structure JSONRPCRequest where
  jsonrpc : String
  id : Nat
  method : String
  params : Json

/-- `make_initialize_request` (lines 160-173).  The client name and
version are parameters here (the Python reads them from settings and the
package version); the `id` field is the literal `1` it writes. -/
def makeInitializeRequest (appName : String) (appVersion : String)
    (capabilities : Option Json) (protocolVersion : String) : JSONRPCRequest :=
  { jsonrpc := JSONRPC_VERSION
    id := 1
    method := "initialize"
    params := Json.obj
      [("clientInfo", Json.obj [("name", Json.s appName), ("version", Json.s appVersion)]),
       ("capabilities", capabilities.getD (Json.obj [])),
       ("protocolVersion", Json.s protocolVersion)] }

/-- `make_list_tools_request` (lines 176-184); `params` is `None` when no
cursor is given. -/
def makeListToolsRequest (cursor : Option String) : JSONRPCRequest :=
  { jsonrpc := JSONRPC_VERSION
    id := 1
    method := "tools/list"
    params := match cursor with
      | some c => Json.obj [("cursor", Json.s c)]
      | none => Json.null }

/-- `make_call_tool_request` (lines 187-198). -/
def makeCallToolRequest (name : String) (arguments : Option Json) : JSONRPCRequest :=
  { jsonrpc := JSONRPC_VERSION
    id := 1
    method := "tools/call"
    params := Json.obj [("name", Json.s name), ("arguments", arguments.getD (Json.obj []))] }

/-! ## `MCPClient` (`services/mcp.py`) -/

/-- `_id_counter = itertools.count(1)`: a class attribute, one shared
counter for every `MCPClient` instance in the process. -/
def ID_COUNTER_START : Nat := 1

/-- `next(self._id_counter)`: yield the current counter value and advance
it. -/
def nextRequestId (counter : Nat) : Nat × Nat := (counter, counter + 1)

/-- The request `_rpc_call` builds (lines 25-32), together with the
advanced counter. -/
def rpcCallRequest (counter : Nat) (method : String) (params : Json) :
    JSONRPCRequest × Nat :=
  ({ jsonrpc := "2.0", id := (nextRequestId counter).1, method := method, params := params },
   (nextRequestId counter).2)

/-- The ids handed out by `n` successive `_rpc_call`s starting from
counter value `c`. -/
def rpcIdsFrom (c : Nat) : Nat → List Nat
  | 0 => []
  | n + 1 => (nextRequestId c).1 :: rpcIdsFrom (nextRequestId c).2 n

/-- What the HTTP POST of one RPC produced, as seen after
`raise_for_status()` and `response.json()`. -/
inductive HttpResult where
  | ok (payload : Json)
  | badJson
  | statusError (code : Nat)

/-- The exceptions the client code can raise. -/
inductive CallError where
  | httpStatus (code : Nat)
  | invalidJson
  | mcpError (payload : Json)
  | invokeBadJson

/-- Response handling of `_rpc_call` (lines 33-40): `raise_for_status`,
parse JSON, raise `RuntimeError` when a non-`None` `error` field is
present, otherwise return the payload. -/
def rpcCallResult (resp : HttpResult) : Except CallError Json :=
  match resp with
  | .statusError code => .error (.httpStatus code)
  | .badJson => .error .invalidJson
  | .ok payload =>
    match payload.get "error" with
    | some Json.null => .ok payload
    | some e => .error (.mcpError e)
    | none => .ok payload

/-- `MCPClient.discover` (lines 42-53): `_rpc_call` with a
`httpx.HTTPStatusError` handler returning `{}`; every other failure
propagates. -/
def mcpDiscover (resp : HttpResult) : Except CallError Json :=
  match rpcCallResult resp with
  | .error (.httpStatus _) => .ok (Json.obj [])
  | r => r

/-- `result.protocolVersion` of an `initialize`-style response payload. -/
def resultProtocolVersion (payload : Json) : Option Json :=
  (payload.get "result").bind fun r => r.get "protocolVersion"

/-- The statuses for which `MCPClient.handle` attempts its fallback plain
POST (line 88). -/
def FALLBACK_STATUSES : List Nat := [404, 415, 422]

/-- The two HTTP responses an invocation may consume: the JSON-RPC invoke
POST, and (only read when the fallback path runs) the fallback plain
POST. -/
structure InvokeEnv where
  rpcResponse : HttpResult
  fallbackResponse : HttpResult

/-- `MCPClient.handle` (lines 55-101): issue the `invoke` RPC; on
`httpx.HTTPStatusError` with status 404, 415 or 422 issue one fallback
plain POST of the params (raising on its HTTP failure, wrapping its JSON
parse failure); on any other error re-raise.  The second component counts
the HTTP POSTs performed for the invocation. -/
def mcpHandle (env : InvokeEnv) : Except CallError Json × Nat :=
  match rpcCallResult env.rpcResponse with
  | .ok payload => (.ok payload, 1)
  | .error (.httpStatus code) =>
    if FALLBACK_STATUSES.contains code then
      match env.fallbackResponse with
      | .ok body => (.ok body, 2)
      | .badJson => (.error .invokeBadJson, 2)
      | .statusError c2 => (.error (.httpStatus c2), 2)
    else (.error (.httpStatus code), 1)
  | .error e => (.error e, 1)

/-! ## `MCPServerBinding.resolved_mcp_tools` under concurrency
(`prompt_router.py` lines 56-74)

The method runs on an asyncio event loop: control can only switch between
callers at `await` boundaries.  We model `n` concurrent callers of one
binding's `resolved_mcp_tools` as a transition system whose atomic steps
are the code sections between those boundaries, and prove safety over
every interleaving (a superset of the asyncio-schedulable ones).
`discovered` is whatever single value `_load_mcp_tools` returns (the tool
list on success, `[]` when the discovery failed).  `loadCalls` is a ghost
counter of how many times the network discovery was started. -/

/-- The shared, per-binding mutable state: `_mcp_tools`, `_schema_loaded`,
the `asyncio.Lock` (recording which caller holds it) and the ghost load
counter. -/
structure BindingSharedState where
  mcp_tools : List String
  schema_loaded : Bool
  lockHeld : Option Nat
  loadCalls : Nat

/-- Where one caller of `resolved_mcp_tools` is between await points. -/
inductive ResolvePhase where
  | start
  | waitingLock
  | holdingLock
  | loading
  | unlocked
  | done (result : List String)

/-- The whole system: the binding's shared state plus each caller's
phase. -/
structure ResolveSystem (n : Nat) where
  shared : BindingSharedState
  caller : Fin n → ResolvePhase

/-- Initial state: nothing loaded, empty cached list, lock free, every
caller about to enter the method. -/
def initResolveSystem (n : Nat) : ResolveSystem n :=
  { shared := { mcp_tools := [], schema_loaded := false, lockHeld := none, loadCalls := 0 }
    caller := fun _ => .start }

/-- One atomic step of one caller.
* `fastPathHit`/`fastPathMiss`: the unguarded `if self._schema_loaded`
  check (lines 61-65); a hit returns the cached `_mcp_tools` at once
  without touching the lock.
* `acquireLock`: `async with self._lock` succeeds only when the lock is
  free (line 68).
* `recheckLoaded`: the re-check under the lock finds the schema already
  loaded (line 69); the body is skipped and the lock released.
* `recheckUnloaded`: the re-check finds it unloaded and starts the
  `_load_mcp_tools` network call (line 70) — the ghost counter counts
  these starts.
* `finishLoad`: the awaited load returns; `_mcp_tools` and
  `_schema_loaded` are written and the lock released (lines 70-71).
* `returnCached`: `return self._mcp_tools` after the `async with` block
  (line 74). -/
inductive ResolveStep (discovered : List String) {n : Nat} :
    ResolveSystem n → ResolveSystem n → Prop
  | fastPathHit (s : ResolveSystem n) (i : Fin n) :
      s.caller i = .start → s.shared.schema_loaded = true →
      ResolveStep discovered s
        { s with caller := Function.update s.caller i (.done s.shared.mcp_tools) }
  | fastPathMiss (s : ResolveSystem n) (i : Fin n) :
      s.caller i = .start → s.shared.schema_loaded = false →
      ResolveStep discovered s
        { s with caller := Function.update s.caller i .waitingLock }
  | acquireLock (s : ResolveSystem n) (i : Fin n) :
      s.caller i = .waitingLock → s.shared.lockHeld = none →
      ResolveStep discovered s
        { shared := { s.shared with lockHeld := some i.val }
          caller := Function.update s.caller i .holdingLock }
  | recheckLoaded (s : ResolveSystem n) (i : Fin n) :
      s.caller i = .holdingLock → s.shared.schema_loaded = true →
      ResolveStep discovered s
        { shared := { s.shared with lockHeld := none }
          caller := Function.update s.caller i .unlocked }
  | recheckUnloaded (s : ResolveSystem n) (i : Fin n) :
      s.caller i = .holdingLock → s.shared.schema_loaded = false →
      ResolveStep discovered s
        { shared := { s.shared with loadCalls := s.shared.loadCalls + 1 }
          caller := Function.update s.caller i .loading }
  | finishLoad (s : ResolveSystem n) (i : Fin n) :
      s.caller i = .loading →
      ResolveStep discovered s
        { shared := { s.shared with
                      mcp_tools := discovered
                      schema_loaded := true
                      lockHeld := none }
          caller := Function.update s.caller i .unlocked }
  | returnCached (s : ResolveSystem n) (i : Fin n) :
      s.caller i = .unlocked →
      ResolveStep discovered s
        { s with caller := Function.update s.caller i (.done s.shared.mcp_tools) }

/-- States reachable from the initial state by interleaved caller steps. -/
inductive ResolveReachable (discovered : List String) (n : Nat) : ResolveSystem n → Prop
  | init : ResolveReachable discovered n (initResolveSystem n)
  | step {s s' : ResolveSystem n} : ResolveReachable discovered n s →
      ResolveStep discovered s s' → ResolveReachable discovered n s'

/-- The inductive invariant of the binding's state machine. -/
structure ResolveInv (discovered : List String) {n : Nat} (s : ResolveSystem n) : Prop where
  loadCalls_le : s.shared.loadCalls ≤ 1
  loaded_tools : s.shared.schema_loaded = true → s.shared.mcp_tools = discovered
  lock_of_phase : ∀ i : Fin n, s.caller i = .holdingLock ∨ s.caller i = .loading →
    s.shared.lockHeld = some i.val
  loading_unloaded : ∀ i : Fin n, s.caller i = .loading → s.shared.schema_loaded = false
  unlocked_loaded : ∀ i : Fin n, s.caller i = .unlocked → s.shared.schema_loaded = true
  done_val : ∀ (i : Fin n) (v : List String), s.caller i = .done v → v = discovered
  calls_zero : s.shared.schema_loaded = false →
    (∃ i : Fin n, s.caller i = .loading) ∨ s.shared.loadCalls = 0

/-! ## Helper lemmas: event counting -/

theorem consultCount_nil : consultCount [] = 0 := rfl

theorem consultCount_append (a b : List Event) :
    consultCount (a ++ b) = consultCount a + consultCount b :=
  List.countP_append _ _ _

theorem invokeCount_nil : invokeCount [] = 0 := rfl

theorem invokeCount_append (a b : List Event) :
    invokeCount (a ++ b) = invokeCount a + invokeCount b :=
  List.countP_append _ _ _

theorem consultCount_loadEvents (servers : List MCPServerBinding) :
    consultCount (servers.map fun b => Event.capabilityLoad b.name) = 0 := by
  induction servers with
  | nil => rfl
  | cons b rest ih =>
    simp only [List.map_cons]
    simp [consultCount, List.countP_cons] at ih ⊢

theorem invokeCount_loadEvents (servers : List MCPServerBinding) :
    invokeCount (servers.map fun b => Event.capabilityLoad b.name) = 0 := by
  induction servers with
  | nil => rfl
  | cons b rest ih =>
    simp only [List.map_cons]
    simp [invokeCount, List.countP_cons] at ih ⊢

/-! ## Helper lemmas: unfolding the loop -/

theorem loopGo_zero (oracle : Nat → Option ToolSuggestion)
    (tool : Nat → Except String String) (servers : List MCPServerBinding)
    (nC nI : Nat) (ctx : String) :
    loopGo oracle tool servers 0 nC nI ctx = ⟨exhaustedOutcome ctx, [], ctx⟩ := rfl

theorem loopGo_succ (oracle : Nat → Option ToolSuggestion)
    (tool : Nat → Except String String) (servers : List MCPServerBinding)
    (fuel nC nI : Nat) (ctx : String) :
    loopGo oracle tool servers (fuel + 1) nC nI ctx =
      match runIteration servers (oracle nC) (tool nI) (MAX_ATTEMPTS - fuel) with
      | .halt outcome evs => ⟨outcome, evs, ctx⟩
      | .next line evs =>
        let r := loopGo oracle tool servers fuel (nC + 1) (nI + 1) (ctx ++ line)
        ⟨r.outcome, evs ++ r.events, r.context⟩ := rfl

theorem loopGo_halt (oracle : Nat → Option ToolSuggestion)
    (tool : Nat → Except String String) (servers : List MCPServerBinding)
    (fuel nC nI : Nat) (ctx : String) (outcome : PromptOutcome) (evs : List Event)
    (h : runIteration servers (oracle nC) (tool nI) (MAX_ATTEMPTS - fuel) = .halt outcome evs) :
    loopGo oracle tool servers (fuel + 1) nC nI ctx = ⟨outcome, evs, ctx⟩ := by
  rw [loopGo_succ, h]

theorem loopGo_next (oracle : Nat → Option ToolSuggestion)
    (tool : Nat → Except String String) (servers : List MCPServerBinding)
    (fuel nC nI : Nat) (ctx : String) (line : String) (evs : List Event)
    (h : runIteration servers (oracle nC) (tool nI) (MAX_ATTEMPTS - fuel) = .next line evs) :
    loopGo oracle tool servers (fuel + 1) nC nI ctx =
      let r := loopGo oracle tool servers fuel (nC + 1) (nI + 1) (ctx ++ line)
      ⟨r.outcome, evs ++ r.events, r.context⟩ := by
  rw [loopGo_succ, h]

/-! ## Helper lemmas: the iteration branches -/

theorem runIteration_none (servers : List MCPServerBinding)
    (toolRes : Except String String) (numTries : Nat) :
    runIteration servers none toolRes numTries = .halt noSuggestionOutcome [.oracleConsult] := rfl

theorem runIteration_final (servers : List MCPServerBinding) (s : ToolSuggestion)
    (toolRes : Except String String) (numTries : Nat)
    (hf : s.internal_final_outcome ≠ "") :
    runIteration servers (some s) toolRes numTries =
      .halt (finishedOutcome s numTries) [.oracleConsult] := by
  simp [runIteration, hf]

theorem runIteration_lowConfidence (servers : List MCPServerBinding) (s : ToolSuggestion)
    (toolRes : Except String String) (numTries : Nat)
    (hf : s.internal_final_outcome = "") (hc : s.confidence < 0.5) :
    runIteration servers (some s) toolRes numTries =
      .halt (lowConfidenceOutcome s) [.oracleConsult] := by
  simp [runIteration, hf, hc]

theorem runIteration_noServer (servers : List MCPServerBinding) (s : ToolSuggestion)
    (toolRes : Except String String) (numTries : Nat)
    (hf : s.internal_final_outcome = "") (hc : ¬ s.confidence < 0.5)
    (hb : servers.find? (fun b => b.name.toLower == s.server_name.toLower) = none) :
    runIteration servers (some s) toolRes numTries = .halt noServerOutcome [.oracleConsult] := by
  simp [runIteration, hf, hc, hb]

theorem runIteration_fail (servers : List MCPServerBinding) (s : ToolSuggestion)
    (ex : String) (numTries : Nat) (b : MCPServerBinding)
    (hf : s.internal_final_outcome = "") (hc : ¬ s.confidence < 0.5)
    (hb : servers.find? (fun b => b.name.toLower == s.server_name.toLower) = some b) :
    runIteration servers (some s) (.error ex) numTries =
      .halt (failedOutcome s ex) [.oracleConsult, .toolInvoke s.server_name s.tool_name] := by
  simp [runIteration, hf, hc, hb]

theorem runIteration_ok (servers : List MCPServerBinding) (s : ToolSuggestion)
    (result : String) (numTries : Nat) (b : MCPServerBinding)
    (hf : s.internal_final_outcome = "") (hc : ¬ s.confidence < 0.5)
    (hb : servers.find? (fun b => b.name.toLower == s.server_name.toLower) = some b) :
    runIteration servers (some s) (.ok result) numTries =
      .next (contextLine s result) [.oracleConsult, .toolInvoke s.server_name s.tool_name] := by
  simp [runIteration, hf, hc, hb]

/-! ## Helper lemmas: tokenisation and stripping -/

theorem tokeniseAux_ne_nil (cs cur : List Char) (h : cur ≠ []) :
    tokeniseAux cs cur ≠ [] := by
  induction cs generalizing cur with
  | nil => simp [tokeniseAux, h]
  | cons c rest ih =>
    by_cases hc : isTokenChar c
    · simpa [tokeniseAux, hc] using ih (c :: cur) (by simp)
    · simp [tokeniseAux, hc, h]

theorem tokeniseAux_nil_iff (cs : List Char) :
    tokeniseAux cs [] = [] ↔ ∀ c ∈ cs, isTokenChar c = false := by
  induction cs with
  | nil => simp [tokeniseAux]
  | cons c rest ih =>
    by_cases hc : isTokenChar c
    · rw [show tokeniseAux (c :: rest) [] = tokeniseAux rest [c] by
        simp [tokeniseAux, hc]]
      constructor
      · intro h
        exact absurd h (tokeniseAux_ne_nil rest [c] (by simp))
      · intro h
        exact absurd hc (by simp [h c (List.mem_cons_self c rest)])
    · rw [show tokeniseAux (c :: rest) [] = tokeniseAux rest [] by
        simp [tokeniseAux, hc]]
      rw [Bool.not_eq_true] at hc
      constructor
      · intro h d hd
        rcases List.mem_cons.mp hd with rfl | hd'
        · exact hc
        · exact ih.mp h d hd'
      · intro h
        exact ih.mpr fun d hd => h d (List.mem_cons_of_mem _ hd)

theorem tokenise_eq_nil_iff (s : String) :
    tokenise s = [] ↔ ∀ c ∈ s.data, isTokenChar c.toLower = false := by
  unfold tokenise
  rw [List.map_eq_nil_iff, tokeniseAux_nil_iff]
  constructor
  · intro h c hc
    exact h c.toLower (List.mem_map_of_mem _ hc)
  · intro h d hd
    rcases List.mem_map.mp hd with ⟨c, hc, rfl⟩
    exact h c hc

theorem whitespace_not_token (c : Char) (h : isPyWhitespace c = true) :
    isTokenChar c.toLower = false := by
  simp only [isPyWhitespace, Bool.or_eq_true, decide_eq_true_eq] at h
  rcases h with ((((h | h) | h) | h) | h) | h <;> subst h <;> decide

theorem mem_dropWhile_of_not {p : Char → Bool} (l : List Char) (c : Char)
    (hc : c ∈ l) (hp : p c = false) : c ∈ l.dropWhile p := by
  induction l with
  | nil => cases hc
  | cons a rest ih =>
    by_cases ha : p a
    · rw [List.dropWhile_cons_of_pos ha]
      rcases List.mem_cons.mp hc with rfl | h
      · rw [hp] at ha; cases ha
      · exact ih h
    · rw [List.dropWhile_cons_of_neg ha]
      exact hc

theorem mem_pyStripList (cs : List Char) (c : Char)
    (hc : c ∈ cs) (hw : isPyWhitespace c = false) : c ∈ pyStripList cs := by
  unfold pyStripList
  rw [List.mem_reverse]
  apply mem_dropWhile_of_not _ _ _ hw
  rw [List.mem_reverse]
  exact mem_dropWhile_of_not _ _ hc hw

theorem pyStripList_subset (cs : List Char) (c : Char)
    (hc : c ∈ pyStripList cs) : c ∈ cs := by
  unfold pyStripList at hc
  rw [List.mem_reverse] at hc
  have h1 := (List.dropWhile_sublist (l := (cs.dropWhile isPyWhitespace).reverse)
    (p := isPyWhitespace)).subset hc
  rw [List.mem_reverse] at h1
  exact (List.dropWhile_sublist (l := cs) (p := isPyWhitespace)).subset h1

theorem pyStrip_data (s : String) : (pyStrip s).data = pyStripList s.data := rfl

theorem tokenise_pyStrip_of_ne (p : String) (h : tokenise p ≠ []) :
    pyStrip p ≠ "" ∧ tokenise (pyStrip p) ≠ [] := by
  rw [Ne, tokenise_eq_nil_iff] at h
  push_neg at h
  rcases h with ⟨c, hc, htok⟩
  have htok' : isTokenChar c.toLower = true := by
    revert htok
    cases isTokenChar c.toLower <;> simp
  have hw : isPyWhitespace c = false := by
    by_contra hww
    have hww' : isPyWhitespace c = true := by
      revert hww
      cases isPyWhitespace c <;> simp
    rw [whitespace_not_token c hww'] at htok'
    cases htok'
  have hmem : c ∈ (pyStrip p).data := by
    rw [pyStrip_data]
    exact mem_pyStripList _ _ hc hw
  constructor
  · intro hs
    rw [hs] at hmem
    cases hmem
  · rw [Ne, tokenise_eq_nil_iff]
    push_neg
    exact ⟨c, hmem, by rw [htok']; simp⟩

theorem tokenise_pyStrip_of_nil (p : String) (h : tokenise p = []) :
    tokenise (pyStrip p) = [] := by
  rw [tokenise_eq_nil_iff] at h ⊢
  intro c hc
  rw [pyStrip_data] at hc
  exact h c (pyStripList_subset _ _ hc)

/-! ## Helper lemmas: outcome intents and loop bounds -/

/-- The `intent` values an outcome of `execute` can carry. -/
def terminalIntents : List (Option MetaValue) :=
  [some (.str "finished"), some (.str "no_suggestion"), some (.str "low_confidence"),
   some (.str "no_mcp_server_found"), some (.str "mcp_server_failed"),
   some (.str "max_attempt_exceeded")]

theorem intent_noSuggestion :
    metaLookup noSuggestionOutcome "intent" = some (.str "no_suggestion") := rfl

theorem intent_lowConfidence (s : ToolSuggestion) :
    metaLookup (lowConfidenceOutcome s) "intent" = some (.str "low_confidence") := rfl

theorem intent_noServer :
    metaLookup noServerOutcome "intent" = some (.str "no_mcp_server_found") := rfl

theorem intent_finished (s : ToolSuggestion) (k : Nat) :
    metaLookup (finishedOutcome s k) "intent" = some (.str "finished") := rfl

theorem intent_failed (s : ToolSuggestion) (ex : String) :
    metaLookup (failedOutcome s ex) "intent" = some (.str "mcp_server_failed") := rfl

theorem intent_exhausted (ctx : String) :
    metaLookup (exhaustedOutcome ctx) "intent" = some (.str "max_attempt_exceeded") := rfl

theorem runIteration_halt_spec (servers : List MCPServerBinding)
    (sug : Option ToolSuggestion) (toolRes : Except String String) (numTries : Nat)
    (outcome : PromptOutcome) (evs : List Event)
    (h : runIteration servers sug toolRes numTries = .halt outcome evs) :
    consultCount evs = 1 ∧ invokeCount evs ≤ 1 ∧
      metaLookup outcome "intent" ≠ some (.str "max_attempt_exceeded") ∧
      metaLookup outcome "intent" ∈ terminalIntents := by
  cases sug with
  | none =>
    rw [runIteration_none] at h
    cases h
    exact ⟨rfl, by decide, by decide, by decide⟩
  | some s =>
    by_cases hfin : s.internal_final_outcome = ""
    · by_cases hconf : s.confidence < 0.5
      · rw [runIteration_lowConfidence _ _ _ _ hfin hconf] at h
        cases h
        refine ⟨rfl, by decide, ?_, ?_⟩
        · rw [intent_lowConfidence]; decide
        · rw [intent_lowConfidence]; decide
      · cases hb : servers.find? (fun b => b.name.toLower == s.server_name.toLower) with
        | none =>
          rw [runIteration_noServer _ _ _ _ hfin hconf hb] at h
          cases h
          exact ⟨rfl, by decide, by decide, by decide⟩
        | some b =>
          cases toolRes with
          | error ex =>
            rw [runIteration_fail _ _ _ _ _ hfin hconf hb] at h
            cases h
            refine ⟨rfl, le_rfl, ?_, ?_⟩
            · rw [intent_failed]; decide
            · rw [intent_failed]; decide
          | ok result =>
            rw [runIteration_ok _ _ _ _ _ hfin hconf hb] at h
            cases h
    · rw [runIteration_final _ _ _ _ hfin] at h
      cases h
      refine ⟨rfl, by decide, ?_, ?_⟩
      · rw [intent_finished]; decide
      · rw [intent_finished]; decide

theorem runIteration_next_spec (servers : List MCPServerBinding)
    (sug : Option ToolSuggestion) (toolRes : Except String String) (numTries : Nat)
    (line : String) (evs : List Event)
    (h : runIteration servers sug toolRes numTries = .next line evs) :
    consultCount evs = 1 ∧ invokeCount evs = 1 := by
  cases sug with
  | none => rw [runIteration_none] at h; cases h
  | some s =>
    by_cases hfin : s.internal_final_outcome = ""
    · by_cases hconf : s.confidence < 0.5
      · rw [runIteration_lowConfidence _ _ _ _ hfin hconf] at h; cases h
      · cases hb : servers.find? (fun b => b.name.toLower == s.server_name.toLower) with
        | none => rw [runIteration_noServer _ _ _ _ hfin hconf hb] at h; cases h
        | some b =>
          cases toolRes with
          | error ex => rw [runIteration_fail _ _ _ _ _ hfin hconf hb] at h; cases h
          | ok result =>
            rw [runIteration_ok _ _ _ _ _ hfin hconf hb] at h
            cases h
            exact ⟨rfl, rfl⟩
    · rw [runIteration_final _ _ _ _ hfin] at h; cases h

theorem loopGo_bounds (oracle : Nat → Option ToolSuggestion)
    (tool : Nat → Except String String) (servers : List MCPServerBinding)
    (fuel : Nat) : ∀ (nC nI : Nat) (ctx : String),
    consultCount (loopGo oracle tool servers fuel nC nI ctx).events ≤ fuel ∧
    invokeCount (loopGo oracle tool servers fuel nC nI ctx).events ≤ fuel ∧
    metaLookup (loopGo oracle tool servers fuel nC nI ctx).outcome "intent" ∈ terminalIntents ∧
    (metaLookup (loopGo oracle tool servers fuel nC nI ctx).outcome "intent" =
        some (.str "max_attempt_exceeded") →
      consultCount (loopGo oracle tool servers fuel nC nI ctx).events = fuel ∧
      invokeCount (loopGo oracle tool servers fuel nC nI ctx).events = fuel ∧
      (loopGo oracle tool servers fuel nC nI ctx).outcome =
        exhaustedOutcome (loopGo oracle tool servers fuel nC nI ctx).context) := by
  induction fuel with
  | zero =>
    intro nC nI ctx
    rw [loopGo_zero]
    refine ⟨le_rfl, le_rfl, ?_, fun _ => ⟨rfl, rfl, rfl⟩⟩
    show metaLookup (exhaustedOutcome ctx) "intent" ∈ terminalIntents
    rw [intent_exhausted]
    decide
  | succ fuel ih =>
    intro nC nI ctx
    cases hri : runIteration servers (oracle nC) (tool nI) (MAX_ATTEMPTS - fuel) with
    | halt outcome evs =>
      have he : (loopGo oracle tool servers (fuel + 1) nC nI ctx).events = evs := by
        rw [loopGo_halt _ _ _ _ _ _ _ _ _ hri]
      have ho : (loopGo oracle tool servers (fuel + 1) nC nI ctx).outcome = outcome := by
        rw [loopGo_halt _ _ _ _ _ _ _ _ _ hri]
      obtain ⟨hc1, hi1, hne, hmem⟩ := runIteration_halt_spec _ _ _ _ _ _ hri
      rw [he, ho, hc1]
      exact ⟨by omega, by omega, hmem, fun hcontra => absurd hcontra hne⟩
    | next line evs =>
      have he : (loopGo oracle tool servers (fuel + 1) nC nI ctx).events =
          evs ++ (loopGo oracle tool servers fuel (nC + 1) (nI + 1) (ctx ++ line)).events := by
        rw [loopGo_next _ _ _ _ _ _ _ _ _ hri]
      have ho : (loopGo oracle tool servers (fuel + 1) nC nI ctx).outcome =
          (loopGo oracle tool servers fuel (nC + 1) (nI + 1) (ctx ++ line)).outcome := by
        rw [loopGo_next _ _ _ _ _ _ _ _ _ hri]
      have hx : (loopGo oracle tool servers (fuel + 1) nC nI ctx).context =
          (loopGo oracle tool servers fuel (nC + 1) (nI + 1) (ctx ++ line)).context := by
        rw [loopGo_next _ _ _ _ _ _ _ _ _ hri]
      obtain ⟨hc1, hi1⟩ := runIteration_next_spec _ _ _ _ _ _ hri
      obtain ⟨ih1, ih2, ih3, ih4⟩ := ih (nC + 1) (nI + 1) (ctx ++ line)
      rw [he, ho, hx, consultCount_append, invokeCount_append, hc1, hi1]
      refine ⟨by omega, by omega, ih3, fun hmax => ?_⟩
      obtain ⟨e1, e2, e3⟩ := ih4 hmax
      exact ⟨by omega, by omega, e3⟩

/-! ## Running the strategy and the router -/

theorem executeStrategy_run (oracle : Nat → Option ToolSuggestion)
    (tool : Nat → Except String String) (servers : List MCPServerBinding)
    (prompt : String) (h : tokenise prompt ≠ []) :
    executeStrategy oracle tool servers prompt =
      ⟨.completed (loopGo oracle tool servers MAX_ATTEMPTS 0 0 ""),
       (servers.map fun b => Event.capabilityLoad b.name) ++
         (loopGo oracle tool servers MAX_ATTEMPTS 0 0 "").events⟩ := by
  unfold executeStrategy
  rw [if_neg h]

theorem executeStrategy_reject (oracle : Nat → Option ToolSuggestion)
    (tool : Nat → Except String String) (servers : List MCPServerBinding)
    (prompt : String) (h : tokenise prompt = []) :
    executeStrategy oracle tool servers prompt = ⟨.invalidPrompt, []⟩ := by
  unfold executeStrategy
  rw [if_pos h]

theorem dispatch_run (oracle : Nat → Option ToolSuggestion)
    (tool : Nat → Except String String) (servers : List MCPServerBinding)
    (prompt : String) (h : tokenise prompt ≠ []) :
    dispatch oracle tool servers prompt =
      ⟨.outcome (loopGo oracle tool servers MAX_ATTEMPTS 0 0 ""),
       (servers.map fun b => Event.capabilityLoad b.name) ++
         (loopGo oracle tool servers MAX_ATTEMPTS 0 0 "").events⟩ := by
  obtain ⟨hstrip, htok⟩ := tokenise_pyStrip_of_ne prompt h
  unfold dispatch
  rw [if_neg hstrip, executeStrategy_run _ _ _ _ htok]

/-! ## Claim theorems -/

/-- C1: for every prompt that tokenises to at least one alphanumeric
token, `dispatch` completes with an outcome whose event trace contains at
most 10 oracle consultations and at most 10 remote tool invocations; the
outcome's intent is one of the six terminal intents, and when it is the
exhausted intent (`max_attempt_exceeded`) the loop indeed used all 10
consultations and 10 invocations and returned the exhausted outcome built
from the accumulated context. -/
theorem c1_dispatch_bounded (oracle : Nat → Option ToolSuggestion)
    (tool : Nat → Except String String) (servers : List MCPServerBinding)
    (prompt : String) (h : tokenise prompt ≠ []) :
    ∃ r : LoopResult,
      (dispatch oracle tool servers prompt).result = .outcome r ∧
      consultCount (dispatch oracle tool servers prompt).events ≤ 10 ∧
      invokeCount (dispatch oracle tool servers prompt).events ≤ 10 ∧
      metaLookup r.outcome "intent" ∈ terminalIntents ∧
      (metaLookup r.outcome "intent" = some (.str "max_attempt_exceeded") →
        consultCount (dispatch oracle tool servers prompt).events = 10 ∧
        invokeCount (dispatch oracle tool servers prompt).events = 10 ∧
        r.outcome = exhaustedOutcome r.context) := by
  have hd := dispatch_run oracle tool servers prompt h
  obtain ⟨b1, b2, b3, b4⟩ := loopGo_bounds oracle tool servers MAX_ATTEMPTS 0 0 ""
  rw [show MAX_ATTEMPTS = 10 from rfl] at b1 b2 b3 b4 hd
  refine ⟨loopGo oracle tool servers 10 0 0 "", ?_, ?_, ?_, b3, ?_⟩
  · rw [hd]
  · rw [hd]
    show consultCount ((servers.map fun b => Event.capabilityLoad b.name) ++
      (loopGo oracle tool servers 10 0 0 "").events) ≤ 10
    rw [consultCount_append, consultCount_loadEvents]
    omega
  · rw [hd]
    show invokeCount ((servers.map fun b => Event.capabilityLoad b.name) ++
      (loopGo oracle tool servers 10 0 0 "").events) ≤ 10
    rw [invokeCount_append, invokeCount_loadEvents]
    omega
  · intro hmax
    obtain ⟨e1, e2, e3⟩ := b4 hmax
    refine ⟨?_, ?_, e3⟩
    · rw [hd]
      show consultCount ((servers.map fun b => Event.capabilityLoad b.name) ++
        (loopGo oracle tool servers 10 0 0 "").events) = 10
      rw [consultCount_append, consultCount_loadEvents, e1]
    · rw [hd]
      show invokeCount ((servers.map fun b => Event.capabilityLoad b.name) ++
        (loopGo oracle tool servers 10 0 0 "").events) = 10
      rw [invokeCount_append, invokeCount_loadEvents, e2]

/-- Witness for C1 at a concrete input. -/
theorem c1_dispatch_bounded_witness :
    tokenise "hello" ≠ [] ∧
    (∃ r : LoopResult,
      (dispatch (fun _ => none) (fun _ => .error "e") [] "hello").result = .outcome r ∧
      consultCount (dispatch (fun _ => none) (fun _ => .error "e") [] "hello").events ≤ 10 ∧
      invokeCount (dispatch (fun _ => none) (fun _ => .error "e") [] "hello").events ≤ 10 ∧
      metaLookup r.outcome "intent" ∈ terminalIntents ∧
      (metaLookup r.outcome "intent" = some (.str "max_attempt_exceeded") →
        consultCount (dispatch (fun _ => none) (fun _ => .error "e") [] "hello").events = 10 ∧
        invokeCount (dispatch (fun _ => none) (fun _ => .error "e") [] "hello").events = 10 ∧
        r.outcome = exhaustedOutcome r.context)) :=
  ⟨by decide, c1_dispatch_bounded (fun _ => none) (fun _ => .error "e") [] "hello" (by decide)⟩

/-- C9: a prompt with no alphanumeric token (in particular an empty or
whitespace-only prompt) makes `dispatch` raise a `ValueError`
synchronously, with an empty event trace: no capability load, no oracle
consultation, no tool invocation. -/
theorem c9_validation_before_io (oracle : Nat → Option ToolSuggestion)
    (tool : Nat → Except String String) (servers : List MCPServerBinding)
    (prompt : String) (h : tokenise prompt = []) :
    (∃ msg, (dispatch oracle tool servers prompt).result = .validationError msg) ∧
    (dispatch oracle tool servers prompt).events = [] := by
  unfold dispatch
  by_cases hstrip : pyStrip prompt = ""
  · rw [if_pos hstrip]
    exact ⟨⟨"Prompt must not be empty", rfl⟩, rfl⟩
  · rw [if_neg hstrip,
      executeStrategy_reject oracle tool servers _ (tokenise_pyStrip_of_nil prompt h)]
    exact ⟨⟨"Prompt must contain at least one token", rfl⟩, rfl⟩

/-- Witness for C9 at a concrete input (whitespace and symbols only). -/
theorem c9_validation_before_io_witness :
    tokenise "  !?* " = [] ∧
    ((∃ msg, (dispatch (fun _ => none) (fun _ => .ok "r") [] "  !?* ").result =
        .validationError msg) ∧
     (dispatch (fun _ => none) (fun _ => .ok "r") [] "  !?* ").events = []) :=
  ⟨by decide, c9_validation_before_io (fun _ => none) (fun _ => .ok "r") [] "  !?* " (by decide)⟩

/-- If the first iteration halts, the whole strategy returns its outcome
with the capability loads followed by that iteration's events. -/
theorem executeStrategy_first_halt (oracle : Nat → Option ToolSuggestion)
    (tool : Nat → Except String String) (servers : List MCPServerBinding)
    (prompt : String) (h : tokenise prompt ≠ []) (outcome : PromptOutcome) (evs : List Event)
    (hri : runIteration servers (oracle 0) (tool 0) (MAX_ATTEMPTS - 9) = .halt outcome evs) :
    executeStrategy oracle tool servers prompt =
      ⟨.completed ⟨outcome, evs, ""⟩,
       (servers.map fun b => Event.capabilityLoad b.name) ++ evs⟩ := by
  have hl : loopGo oracle tool servers MAX_ATTEMPTS 0 0 "" = ⟨outcome, evs, ""⟩ := by
    rw [show MAX_ATTEMPTS = 9 + 1 from rfl]
    exact loopGo_halt _ _ _ 9 0 0 "" _ _ hri
  rw [executeStrategy_run _ _ _ _ h, hl]

/-- C2 (amended): when the first consultation yields no suggestion at all,
`execute` stops at once with the apology, intent `no_suggestion` and
metadata confidence 0; when it yields a suggestion without final answer
whose confidence is strictly below 0.5, `execute` stops at once with the
apology, intent `low_confidence` and metadata confidence equal to the
suggestion's own (sub-0.5) confidence — not 0.  Either way exactly one
oracle consultation and zero tool invocations are performed. -/
theorem c2_low_confidence_behavior (oracle : Nat → Option ToolSuggestion)
    (tool : Nat → Except String String) (servers : List MCPServerBinding)
    (prompt : String) (h : tokenise prompt ≠ []) :
    ((oracle 0 = none) →
      ∃ r, (executeStrategy oracle tool servers prompt).result = .completed r ∧
        r.outcome.content = apologyContent ∧
        metaLookup r.outcome "intent" = some (.str "no_suggestion") ∧
        metaLookup r.outcome "confidence" = some (.rat 0) ∧
        consultCount (executeStrategy oracle tool servers prompt).events = 1 ∧
        invokeCount (executeStrategy oracle tool servers prompt).events = 0) ∧
    (∀ s : ToolSuggestion, oracle 0 = some s → s.internal_final_outcome = "" →
      s.confidence < 0.5 →
      ∃ r, (executeStrategy oracle tool servers prompt).result = .completed r ∧
        r.outcome.content = apologyContent ∧
        metaLookup r.outcome "intent" = some (.str "low_confidence") ∧
        metaLookup r.outcome "confidence" = some (.rat s.confidence) ∧
        consultCount (executeStrategy oracle tool servers prompt).events = 1 ∧
        invokeCount (executeStrategy oracle tool servers prompt).events = 0) := by
  constructor
  · intro h0
    have hri : runIteration servers (oracle 0) (tool 0) (MAX_ATTEMPTS - 9) =
        .halt noSuggestionOutcome [.oracleConsult] := by
      rw [h0]; exact runIteration_none _ _ _
    have hex := executeStrategy_first_halt oracle tool servers prompt h _ _ hri
    refine ⟨⟨noSuggestionOutcome, [.oracleConsult], ""⟩, ?_, rfl, rfl, rfl, ?_, ?_⟩
    · rw [hex]
    · rw [hex]
      show consultCount ((servers.map fun b => Event.capabilityLoad b.name) ++
        [.oracleConsult]) = 1
      rw [consultCount_append, consultCount_loadEvents]
      rfl
    · rw [hex]
      show invokeCount ((servers.map fun b => Event.capabilityLoad b.name) ++
        [.oracleConsult]) = 0
      rw [invokeCount_append, invokeCount_loadEvents]
      rfl
  · intro s h0 hfin hconf
    have hri : runIteration servers (oracle 0) (tool 0) (MAX_ATTEMPTS - 9) =
        .halt (lowConfidenceOutcome s) [.oracleConsult] := by
      rw [h0]; exact runIteration_lowConfidence _ _ _ _ hfin hconf
    have hex := executeStrategy_first_halt oracle tool servers prompt h _ _ hri
    refine ⟨⟨lowConfidenceOutcome s, [.oracleConsult], ""⟩, ?_, rfl, rfl, rfl, ?_, ?_⟩
    · rw [hex]
    · rw [hex]
      show consultCount ((servers.map fun b => Event.capabilityLoad b.name) ++
        [.oracleConsult]) = 1
      rw [consultCount_append, consultCount_loadEvents]
      rfl
    · rw [hex]
      show invokeCount ((servers.map fun b => Event.capabilityLoad b.name) ++
        [.oracleConsult]) = 0
      rw [invokeCount_append, invokeCount_loadEvents]
      rfl

/-- Witness for C2 (amended) at concrete inputs. -/
theorem c2_low_confidence_behavior_witness :
    tokenise "hello" ≠ [] ∧
    ((((fun _ => none : Nat → Option ToolSuggestion) 0 = none) →
      ∃ r, (executeStrategy (fun _ => none) (fun _ => .ok "r") [] "hello").result =
          .completed r ∧
        r.outcome.content = apologyContent ∧
        metaLookup r.outcome "intent" = some (.str "no_suggestion") ∧
        metaLookup r.outcome "confidence" = some (.rat 0) ∧
        consultCount (executeStrategy (fun _ => none) (fun _ => .ok "r") [] "hello").events = 1 ∧
        invokeCount (executeStrategy (fun _ => none) (fun _ => .ok "r") [] "hello").events = 0) ∧
    (∀ s : ToolSuggestion, (fun _ => none : Nat → Option ToolSuggestion) 0 = some s →
      s.internal_final_outcome = "" → s.confidence < 0.5 →
      ∃ r, (executeStrategy (fun _ => none) (fun _ => .ok "r") [] "hello").result =
          .completed r ∧
        r.outcome.content = apologyContent ∧
        metaLookup r.outcome "intent" = some (.str "low_confidence") ∧
        metaLookup r.outcome "confidence" = some (.rat s.confidence) ∧
        consultCount (executeStrategy (fun _ => none) (fun _ => .ok "r") [] "hello").events = 1 ∧
        invokeCount (executeStrategy (fun _ => none) (fun _ => .ok "r") [] "hello").events = 0)) :=
  ⟨by decide, c2_low_confidence_behavior (fun _ => none) (fun _ => .ok "r") [] "hello" (by decide)⟩

/-- The concrete suggestion of the C2 counterexample: no final answer,
confidence 0.49. -/
def c2cxSuggestion : ToolSuggestion :=
  ⟨"t", "", "srv", 49/100, "why", "args"⟩

/-- The concrete strategy run of the C2 counterexample. -/
def c2cxTrace : StrategyTrace :=
  executeStrategy (fun _ => some c2cxSuggestion) (fun _ => Except.ok "res")
    [⟨"srv", none⟩] "hello"

/-- C2 counterexample: with confidence 0.49 on the first consultation the
code terminates `low_confidence` after one consultation and zero
invocations, but the outcome's metadata confidence is 0.49, not the 0 the
claim states. -/
theorem c2_counterexample :
    c2cxTrace.result =
      .completed ⟨⟨apologyContent,
        [("intent", .str "low_confidence"), ("confidence", .rat (49/100))]⟩,
        [.oracleConsult], ""⟩ ∧
    consultCount c2cxTrace.events = 1 ∧
    invokeCount c2cxTrace.events = 0 ∧
    ((49 : Rat)/100) ≠ 0 := by
  have hri : runIteration [⟨"srv", none⟩] (some c2cxSuggestion) (Except.ok "res")
      (MAX_ATTEMPTS - 9) = .halt (lowConfidenceOutcome c2cxSuggestion) [.oracleConsult] :=
    runIteration_lowConfidence _ _ _ _ rfl (by norm_num [c2cxSuggestion])
  have hex := executeStrategy_first_halt (fun _ => some c2cxSuggestion)
      (fun _ => Except.ok "res") [⟨"srv", none⟩] "hello" (by decide) _ _ hri
  unfold c2cxTrace
  rw [hex]
  refine ⟨rfl, rfl, rfl, by norm_num⟩

/-- C10: a suggestion carrying a non-empty final answer on the first
consultation terminates `finished` with that answer and the suggestion's
own confidence in the metadata, with no constraint on the confidence
value: the final-answer check precedes the confidence check. -/
theorem c10_final_answer_precedence (oracle : Nat → Option ToolSuggestion)
    (tool : Nat → Except String String) (servers : List MCPServerBinding)
    (prompt : String) (h : tokenise prompt ≠ []) (s : ToolSuggestion)
    (h0 : oracle 0 = some s) (hfin : s.internal_final_outcome ≠ "") :
    ∃ r, (executeStrategy oracle tool servers prompt).result = .completed r ∧
      r.outcome.content = s.internal_final_outcome ∧
      metaLookup r.outcome "intent" = some (.str "finished") ∧
      metaLookup r.outcome "confidence" = some (.rat s.confidence) ∧
      metaLookup r.outcome "num_tries" = some (.nat 1) ∧
      invokeCount (executeStrategy oracle tool servers prompt).events = 0 := by
  have hri : runIteration servers (oracle 0) (tool 0) (MAX_ATTEMPTS - 9) =
      .halt (finishedOutcome s (MAX_ATTEMPTS - 9)) [.oracleConsult] := by
    rw [h0]; exact runIteration_final _ _ _ _ hfin
  have hex := executeStrategy_first_halt oracle tool servers prompt h _ _ hri
  refine ⟨⟨finishedOutcome s (MAX_ATTEMPTS - 9), [.oracleConsult], ""⟩, ?_, rfl, rfl, rfl,
    rfl, ?_⟩
  · rw [hex]
  · rw [hex]
    show invokeCount ((servers.map fun b => Event.capabilityLoad b.name) ++
      [.oracleConsult]) = 0
    rw [invokeCount_append, invokeCount_loadEvents]
    rfl

/-- Witness for C10 at a concrete input with confidence 0.0, strictly
below the 0.5 threshold. -/
theorem c10_final_answer_precedence_witness :
    tokenise "hi" ≠ [] ∧
    ((fun _ => some (⟨"t", "answer", "srv", 0, "r", "a"⟩ : ToolSuggestion)) 0 =
      some (⟨"t", "answer", "srv", 0, "r", "a"⟩ : ToolSuggestion)) ∧
    (⟨"t", "answer", "srv", 0, "r", "a"⟩ : ToolSuggestion).internal_final_outcome ≠ "" ∧
    (∃ r, (executeStrategy (fun _ => some ⟨"t", "answer", "srv", 0, "r", "a"⟩)
        (fun _ => .ok "x") [⟨"srv", none⟩] "hi").result = .completed r ∧
      r.outcome.content =
        (⟨"t", "answer", "srv", 0, "r", "a"⟩ : ToolSuggestion).internal_final_outcome ∧
      metaLookup r.outcome "intent" = some (.str "finished") ∧
      metaLookup r.outcome "confidence" =
        some (.rat (⟨"t", "answer", "srv", 0, "r", "a"⟩ : ToolSuggestion).confidence) ∧
      metaLookup r.outcome "num_tries" = some (.nat 1) ∧
      invokeCount (executeStrategy (fun _ => some ⟨"t", "answer", "srv", 0, "r", "a"⟩)
        (fun _ => .ok "x") [⟨"srv", none⟩] "hi").events = 0) :=
  ⟨by decide, rfl, by decide,
    c10_final_answer_precedence (fun _ => some ⟨"t", "answer", "srv", 0, "r", "a"⟩)
      (fun _ => .ok "x") [⟨"srv", none⟩] "hi" (by decide)
      ⟨"t", "answer", "srv", 0, "r", "a"⟩ rfl (by decide)⟩

theorem mcpHandle_of_ok (env : InvokeEnv) (p : Json)
    (hr : rpcCallResult env.rpcResponse = .ok p) : mcpHandle env = (.ok p, 1) := by
  unfold mcpHandle
  rw [hr]

theorem mcpHandle_of_httpStatus (env : InvokeEnv) (code : Nat)
    (hr : rpcCallResult env.rpcResponse = .error (.httpStatus code)) :
    mcpHandle env =
      if FALLBACK_STATUSES.contains code then
        match env.fallbackResponse with
        | .ok body => (.ok body, 2)
        | .badJson => (.error .invokeBadJson, 2)
        | .statusError c2 => (.error (.httpStatus c2), 2)
      else (.error (.httpStatus code), 1) := by
  unfold mcpHandle
  rw [hr]

theorem mcpHandle_of_invalidJson (env : InvokeEnv)
    (hr : rpcCallResult env.rpcResponse = .error .invalidJson) :
    mcpHandle env = (.error .invalidJson, 1) := by
  unfold mcpHandle
  rw [hr]

theorem mcpHandle_of_mcpError (env : InvokeEnv) (p : Json)
    (hr : rpcCallResult env.rpcResponse = .error (.mcpError p)) :
    mcpHandle env = (.error (.mcpError p), 1) := by
  unfold mcpHandle
  rw [hr]

theorem mcpHandle_of_invokeBadJson (env : InvokeEnv)
    (hr : rpcCallResult env.rpcResponse = .error .invokeBadJson) :
    mcpHandle env = (.error .invokeBadJson, 1) := by
  unfold mcpHandle
  rw [hr]

/-- The number of HTTP POSTs `handle` performs for one invocation is at
most 2: the invoke RPC itself plus at most one fallback POST. -/
theorem mcpHandle_posts_le_two (env : InvokeEnv) : (mcpHandle env).2 ≤ 2 := by
  cases hr : rpcCallResult env.rpcResponse with
  | ok p => rw [mcpHandle_of_ok env p hr]; exact one_le_two
  | error e =>
    cases e with
    | httpStatus code =>
      rw [mcpHandle_of_httpStatus env code hr]
      by_cases hcode : FALLBACK_STATUSES.contains code = true
      · rw [if_pos hcode]
        cases env.fallbackResponse <;> simp
      · rw [if_neg hcode]
        simp
    | invalidJson => rw [mcpHandle_of_invalidJson env hr]; exact one_le_two
    | mcpError p => rw [mcpHandle_of_mcpError env p hr]; exact one_le_two
    | invokeBadJson => rw [mcpHandle_of_invokeBadJson env hr]; exact one_le_two

/-- `handle` performs no second POST unless the invoke RPC failed with an
HTTP status in the fallback set. -/
theorem mcpHandle_single_post (env : InvokeEnv)
    (h : ∀ code, rpcCallResult env.rpcResponse = .error (.httpStatus code) →
      ¬ FALLBACK_STATUSES.contains code) :
    (mcpHandle env).2 = 1 := by
  cases hr : rpcCallResult env.rpcResponse with
  | ok p => rw [mcpHandle_of_ok env p hr]
  | error e =>
    cases e with
    | httpStatus code => rw [mcpHandle_of_httpStatus env code hr, if_neg (h code hr)]
    | invalidJson => rw [mcpHandle_of_invalidJson env hr]
    | mcpError p => rw [mcpHandle_of_mcpError env p hr]
    | invokeBadJson => rw [mcpHandle_of_invokeBadJson env hr]

/-- C7 (amended): when the tool invocation surfaces an exception to the
dispatch loop, the loop terminates at once with intent
`mcp_server_failed`, the generic failure content, and metadata carrying
the offending tool name, its arguments and the failure detail; exactly
one consultation and the single failed invocation are performed and no
further consultation is attempted.  At the client layer, `handle` makes
at most 2 HTTP POSTs — it retries once, via a fallback plain POST, when
and only when the invoke RPC fails with HTTP status 404, 415 or 422. -/
theorem c7_remote_failure_behavior (env : InvokeEnv) (oracle : Nat → Option ToolSuggestion)
    (tool : Nat → Except String String) (servers : List MCPServerBinding)
    (prompt : String) (h : tokenise prompt ≠ []) (s : ToolSuggestion)
    (b : MCPServerBinding) (ex : String)
    (h0 : oracle 0 = some s) (hfin : s.internal_final_outcome = "")
    (hconf : ¬ s.confidence < 0.5)
    (hb : servers.find? (fun b => b.name.toLower == s.server_name.toLower) = some b)
    (ht : tool 0 = .error ex) :
    (mcpHandle env).2 ≤ 2 ∧
    ((∀ code, rpcCallResult env.rpcResponse = .error (.httpStatus code) →
        ¬ FALLBACK_STATUSES.contains code) → (mcpHandle env).2 = 1) ∧
    (∃ r, (executeStrategy oracle tool servers prompt).result = .completed r ∧
      r.outcome.content = "Something went wrong while querying the MCP server" ∧
      metaLookup r.outcome "intent" = some (.str "mcp_server_failed") ∧
      metaLookup r.outcome "tool_name" = some (.str s.tool_name) ∧
      metaLookup r.outcome "arguments" = some (.str s.arguments) ∧
      metaLookup r.outcome "details" = some (.str ex) ∧
      consultCount (executeStrategy oracle tool servers prompt).events = 1 ∧
      invokeCount (executeStrategy oracle tool servers prompt).events = 1) := by
  refine ⟨mcpHandle_posts_le_two env, mcpHandle_single_post env, ?_⟩
  have hri : runIteration servers (oracle 0) (tool 0) (MAX_ATTEMPTS - 9) =
      .halt (failedOutcome s ex) [.oracleConsult, .toolInvoke s.server_name s.tool_name] := by
    rw [h0, ht]; exact runIteration_fail _ _ _ _ b hfin hconf hb
  have hex := executeStrategy_first_halt oracle tool servers prompt h _ _ hri
  refine ⟨⟨failedOutcome s ex, [.oracleConsult, .toolInvoke s.server_name s.tool_name], ""⟩,
    ?_, rfl, rfl, rfl, rfl, rfl, ?_, ?_⟩
  · rw [hex]
  · rw [hex]
    show consultCount ((servers.map fun b => Event.capabilityLoad b.name) ++
      [.oracleConsult, .toolInvoke s.server_name s.tool_name]) = 1
    rw [consultCount_append, consultCount_loadEvents]
    rfl
  · rw [hex]
    show invokeCount ((servers.map fun b => Event.capabilityLoad b.name) ++
      [.oracleConsult, .toolInvoke s.server_name s.tool_name]) = 1
    rw [invokeCount_append, invokeCount_loadEvents]
    rfl

/-- Witness for C7 (amended) at concrete inputs. -/
theorem c7_remote_failure_behavior_witness :
    tokenise "q" ≠ [] ∧
    ((mcpHandle ⟨.ok (Json.obj []), .ok (Json.obj [])⟩).2 ≤ 2 ∧
    ((∀ code, rpcCallResult (InvokeEnv.mk (.ok (Json.obj [])) (.ok (Json.obj []))).rpcResponse =
        .error (.httpStatus code) → ¬ FALLBACK_STATUSES.contains code) →
      (mcpHandle ⟨.ok (Json.obj []), .ok (Json.obj [])⟩).2 = 1) ∧
    (∃ r, (executeStrategy (fun _ => some ⟨"t", "", "srv", mkRat 9 10, "r", "a"⟩)
        (fun _ => .error "boom") [⟨"srv", none⟩] "q").result = .completed r ∧
      r.outcome.content = "Something went wrong while querying the MCP server" ∧
      metaLookup r.outcome "intent" = some (.str "mcp_server_failed") ∧
      metaLookup r.outcome "tool_name" =
        some (.str (⟨"t", "", "srv", mkRat 9 10, "r", "a"⟩ : ToolSuggestion).tool_name) ∧
      metaLookup r.outcome "arguments" =
        some (.str (⟨"t", "", "srv", mkRat 9 10, "r", "a"⟩ : ToolSuggestion).arguments) ∧
      metaLookup r.outcome "details" = some (.str "boom") ∧
      consultCount (executeStrategy (fun _ => some ⟨"t", "", "srv", mkRat 9 10, "r", "a"⟩)
        (fun _ => .error "boom") [⟨"srv", none⟩] "q").events = 1 ∧
      invokeCount (executeStrategy (fun _ => some ⟨"t", "", "srv", mkRat 9 10, "r", "a"⟩)
        (fun _ => .error "boom") [⟨"srv", none⟩] "q").events = 1)) :=
  ⟨by decide,
    c7_remote_failure_behavior ⟨.ok (Json.obj []), .ok (Json.obj [])⟩
      (fun _ => some ⟨"t", "", "srv", mkRat 9 10, "r", "a"⟩) (fun _ => .error "boom")
      [⟨"srv", none⟩] "q" (by decide) ⟨"t", "", "srv", mkRat 9 10, "r", "a"⟩
      ⟨"srv", none⟩ "boom" rfl rfl (by norm_num [mkRat])
      (List.find?_cons_of_pos _ (by simp)) rfl⟩

/-- The concrete environment of the C7 counterexample: the invoke RPC
fails with HTTP 404 and the fallback POST succeeds. -/
def c7cxEnv : InvokeEnv := ⟨.statusError 404, .ok (Json.obj [])⟩

/-- C7 counterexample: the invoke RPC fails with a transport error (HTTP
404), yet `handle` automatically performs a second POST — so the client
does retry, and the loop does not terminate `mcp_server_failed` for this
failing invocation because the fallback succeeded. -/
theorem c7_counterexample :
    (∃ code, rpcCallResult c7cxEnv.rpcResponse = .error (.httpStatus code)) ∧
    (mcpHandle c7cxEnv).2 = 2 ∧
    (∃ payload, (mcpHandle c7cxEnv).1 = .ok payload) :=
  ⟨⟨404, rfl⟩, rfl, ⟨Json.obj [], rfl⟩⟩

/-- C8: when the first two consultations produce non-final,
high-confidence suggestions matching a configured server whose tool calls
succeed, and the third consultation carries a non-empty final answer,
`execute` terminates `finished` with that answer as content, the third
suggestion's confidence, `num_tries = 3`, exactly 3 consultations and
exactly 2 tool invocations, each reflected as an appended
`Response from server ... and tool ...` line in the accumulated context. -/
theorem c8_finished_third_iteration (oracle : Nat → Option ToolSuggestion)
    (tool : Nat → Except String String) (servers : List MCPServerBinding)
    (prompt : String) (h : tokenise prompt ≠ [])
    (s0 s1 s2 : ToolSuggestion) (b0 b1 : MCPServerBinding) (r0 r1 : String)
    (h0 : oracle 0 = some s0) (h0f : s0.internal_final_outcome = "")
    (h0c : ¬ s0.confidence < 0.5)
    (h0b : servers.find? (fun b => b.name.toLower == s0.server_name.toLower) = some b0)
    (h0t : tool 0 = .ok r0)
    (h1 : oracle 1 = some s1) (h1f : s1.internal_final_outcome = "")
    (h1c : ¬ s1.confidence < 0.5)
    (h1b : servers.find? (fun b => b.name.toLower == s1.server_name.toLower) = some b1)
    (h1t : tool 1 = .ok r1)
    (h2 : oracle 2 = some s2) (h2f : s2.internal_final_outcome ≠ "") :
    ∃ r, (executeStrategy oracle tool servers prompt).result = .completed r ∧
      r.outcome.content = s2.internal_final_outcome ∧
      metaLookup r.outcome "intent" = some (.str "finished") ∧
      metaLookup r.outcome "confidence" = some (.rat s2.confidence) ∧
      metaLookup r.outcome "num_tries" = some (.nat 3) ∧
      consultCount (executeStrategy oracle tool servers prompt).events = 3 ∧
      invokeCount (executeStrategy oracle tool servers prompt).events = 2 ∧
      r.context = contextLine s0 r0 ++ contextLine s1 r1 := by
  have hri1 : runIteration servers (oracle 0) (tool 0) (MAX_ATTEMPTS - 9) =
      .next (contextLine s0 r0) [.oracleConsult, .toolInvoke s0.server_name s0.tool_name] := by
    rw [h0, h0t]; exact runIteration_ok _ _ _ _ b0 h0f h0c h0b
  have hri2 : runIteration servers (oracle 1) (tool 1) (MAX_ATTEMPTS - 8) =
      .next (contextLine s1 r1) [.oracleConsult, .toolInvoke s1.server_name s1.tool_name] := by
    rw [h1, h1t]; exact runIteration_ok _ _ _ _ b1 h1f h1c h1b
  have hri3 : runIteration servers (oracle 2) (tool 2) (MAX_ATTEMPTS - 7) =
      .halt (finishedOutcome s2 (MAX_ATTEMPTS - 7)) [.oracleConsult] := by
    rw [h2]; exact runIteration_final _ _ _ _ h2f
  have hL8 : loopGo oracle tool servers 8 2 2 ("" ++ contextLine s0 r0 ++ contextLine s1 r1) =
      ⟨finishedOutcome s2 (MAX_ATTEMPTS - 7), [.oracleConsult],
       "" ++ contextLine s0 r0 ++ contextLine s1 r1⟩ := by
    rw [show (8 : Nat) = 7 + 1 from rfl]
    exact loopGo_halt _ _ _ 7 2 2 _ _ _ hri3
  have hL9 : loopGo oracle tool servers 9 1 1 ("" ++ contextLine s0 r0) =
      ⟨finishedOutcome s2 (MAX_ATTEMPTS - 7),
       [.oracleConsult, .toolInvoke s1.server_name s1.tool_name] ++ [.oracleConsult],
       "" ++ contextLine s0 r0 ++ contextLine s1 r1⟩ := by
    rw [show (9 : Nat) = 8 + 1 from rfl]
    have hn := loopGo_next oracle tool servers 8 1 1 ("" ++ contextLine s0 r0) _ _ hri2
    rw [hn]
    rw [show (1 : Nat) + 1 = 2 from rfl]
    rw [hL8]
  have hL10 : loopGo oracle tool servers MAX_ATTEMPTS 0 0 "" =
      ⟨finishedOutcome s2 (MAX_ATTEMPTS - 7),
       [.oracleConsult, .toolInvoke s0.server_name s0.tool_name] ++
        ([.oracleConsult, .toolInvoke s1.server_name s1.tool_name] ++ [.oracleConsult]),
       "" ++ contextLine s0 r0 ++ contextLine s1 r1⟩ := by
    rw [show MAX_ATTEMPTS = 9 + 1 from rfl]
    have hn := loopGo_next oracle tool servers 9 0 0 "" _ _ hri1
    rw [hn]
    rw [show (0 : Nat) + 1 = 1 from rfl]
    rw [hL9]
    rfl
  have hex := executeStrategy_run oracle tool servers prompt h
  rw [hL10] at hex
  refine ⟨⟨finishedOutcome s2 (MAX_ATTEMPTS - 7),
    [.oracleConsult, .toolInvoke s0.server_name s0.tool_name] ++
      ([.oracleConsult, .toolInvoke s1.server_name s1.tool_name] ++ [.oracleConsult]),
    "" ++ contextLine s0 r0 ++ contextLine s1 r1⟩, ?_, rfl, rfl, rfl, rfl, ?_, ?_, ?_⟩
  · rw [hex]
  · rw [hex]
    show consultCount ((servers.map fun b => Event.capabilityLoad b.name) ++
      ([.oracleConsult, .toolInvoke s0.server_name s0.tool_name] ++
        ([.oracleConsult, .toolInvoke s1.server_name s1.tool_name] ++ [.oracleConsult]))) = 3
    rw [consultCount_append, consultCount_loadEvents]
    rfl
  · rw [hex]
    show invokeCount ((servers.map fun b => Event.capabilityLoad b.name) ++
      ([.oracleConsult, .toolInvoke s0.server_name s0.tool_name] ++
        ([.oracleConsult, .toolInvoke s1.server_name s1.tool_name] ++ [.oracleConsult]))) = 2
    rw [invokeCount_append, invokeCount_loadEvents]
    rfl
  · show "" ++ contextLine s0 r0 ++ contextLine s1 r1 = contextLine s0 r0 ++ contextLine s1 r1
    rw [String.empty_append]

/-- Witness for C8 at concrete inputs: three scripted consultations, the
third carrying the final answer. -/
theorem c8_finished_third_iteration_witness :
    tokenise "go" ≠ [] ∧
    (∃ r, (executeStrategy
        (fun n => if n = 0 then some ⟨"t0", "", "srv", mkRat 9 10, "r0", "a0"⟩
          else if n = 1 then some ⟨"t1", "", "srv", mkRat 9 10, "r1", "a1"⟩
          else some ⟨"t2", "done", "srv", mkRat 8 10, "r2", "a2"⟩)
        (fun _ => .ok "res") [⟨"srv", none⟩] "go").result = .completed r ∧
      r.outcome.content =
        (⟨"t2", "done", "srv", mkRat 8 10, "r2", "a2"⟩ : ToolSuggestion).internal_final_outcome ∧
      metaLookup r.outcome "intent" = some (.str "finished") ∧
      metaLookup r.outcome "confidence" =
        some (.rat (⟨"t2", "done", "srv", mkRat 8 10, "r2", "a2"⟩ : ToolSuggestion).confidence) ∧
      metaLookup r.outcome "num_tries" = some (.nat 3) ∧
      consultCount (executeStrategy
        (fun n => if n = 0 then some ⟨"t0", "", "srv", mkRat 9 10, "r0", "a0"⟩
          else if n = 1 then some ⟨"t1", "", "srv", mkRat 9 10, "r1", "a1"⟩
          else some ⟨"t2", "done", "srv", mkRat 8 10, "r2", "a2"⟩)
        (fun _ => .ok "res") [⟨"srv", none⟩] "go").events = 3 ∧
      invokeCount (executeStrategy
        (fun n => if n = 0 then some ⟨"t0", "", "srv", mkRat 9 10, "r0", "a0"⟩
          else if n = 1 then some ⟨"t1", "", "srv", mkRat 9 10, "r1", "a1"⟩
          else some ⟨"t2", "done", "srv", mkRat 8 10, "r2", "a2"⟩)
        (fun _ => .ok "res") [⟨"srv", none⟩] "go").events = 2 ∧
      r.context = contextLine ⟨"t0", "", "srv", mkRat 9 10, "r0", "a0"⟩ "res" ++
        contextLine ⟨"t1", "", "srv", mkRat 9 10, "r1", "a1"⟩ "res") :=
  ⟨by decide,
    c8_finished_third_iteration
      (fun n => if n = 0 then some ⟨"t0", "", "srv", mkRat 9 10, "r0", "a0"⟩
        else if n = 1 then some ⟨"t1", "", "srv", mkRat 9 10, "r1", "a1"⟩
        else some ⟨"t2", "done", "srv", mkRat 8 10, "r2", "a2"⟩)
      (fun _ => .ok "res") [⟨"srv", none⟩] "go" (by decide)
      ⟨"t0", "", "srv", mkRat 9 10, "r0", "a0"⟩ ⟨"t1", "", "srv", mkRat 9 10, "r1", "a1"⟩
      ⟨"t2", "done", "srv", mkRat 8 10, "r2", "a2"⟩ ⟨"srv", none⟩ ⟨"srv", none⟩ "res" "res"
      rfl rfl (by norm_num [mkRat]) (List.find?_cons_of_pos _ (by simp)) rfl
      rfl rfl (by norm_num [mkRat]) (List.find?_cons_of_pos _ (by simp)) rfl
      rfl (by decide)⟩

/-! ## C4: request id assignment -/

/-- C4 counterexample: successive requests built by the protocol module's
builders (`make_initialize_request`, `make_list_tools_request`,
`make_call_tool_request`) all carry the hardcoded id 1 — their ids repeat
and are not drawn from a monotonic counter. -/
theorem c4_counterexample :
    (makeInitializeRequest "graphql-agent" "0.1.0" none LATEST_PROTOCOL_VERSION).id = 1 ∧
    (makeListToolsRequest none).id = 1 ∧
    (makeCallToolRequest "lookup" none).id = 1 ∧
    (makeInitializeRequest "graphql-agent" "0.1.0" none LATEST_PROTOCOL_VERSION).id =
      (makeListToolsRequest none).id :=
  ⟨rfl, rfl, rfl, rfl⟩

theorem rpcIdsFrom_le (c n : Nat) : ∀ x ∈ rpcIdsFrom c n, c ≤ x := by
  induction n generalizing c with
  | zero => intro x hx; cases hx
  | succ n ih =>
    intro x hx
    rcases List.mem_cons.mp hx with rfl | hx'
    · exact le_rfl
    · exact le_of_lt (lt_of_lt_of_le (Nat.lt_succ_self c) (ih (c + 1) x hx'))

/-- C4 (amended): the requests actually sent by `MCPClient._rpc_call`
take their id from `next` of the shared `itertools.count(1)` counter: a
request built at counter value `c` carries id `c` and advances the
counter to `c + 1`, and the ids of `n` successive `_rpc_call`s starting
from the initial counter value 1 are pairwise strictly increasing and
never repeat.  The standalone builders of the types module, by contrast,
hardcode id 1 (see the counterexample). -/
theorem c4_rpc_ids_monotonic (method : String) (params : Json) (c n : Nat) :
    (rpcCallRequest c method params).1.id = c ∧
    (rpcCallRequest c method params).2 = c + 1 ∧
    (rpcIdsFrom ID_COUNTER_START n).Pairwise (· < ·) ∧
    (rpcIdsFrom ID_COUNTER_START n).Nodup := by
  refine ⟨rfl, rfl, ?_, ?_⟩
  · have hgen : ∀ (m c0 : Nat), (rpcIdsFrom c0 m).Pairwise (· < ·) := by
      intro m
      induction m with
      | zero => intro c0; exact List.Pairwise.nil
      | succ m ih =>
        intro c0
        refine List.Pairwise.cons ?_ (ih (c0 + 1))
        intro x hx
        exact lt_of_lt_of_le (Nat.lt_succ_self c0) (rpcIdsFrom_le (c0 + 1) m x hx)
    exact hgen n ID_COUNTER_START
  · have hgen : ∀ (m c0 : Nat), (rpcIdsFrom c0 m).Pairwise (· < ·) := by
      intro m
      induction m with
      | zero => intro c0; exact List.Pairwise.nil
      | succ m ih =>
        intro c0
        refine List.Pairwise.cons ?_ (ih (c0 + 1))
        intro x hx
        exact lt_of_lt_of_le (Nat.lt_succ_self c0) (rpcIdsFrom_le (c0 + 1) m x hx)
    exact List.Pairwise.imp (fun hlt => Nat.ne_of_lt hlt) (hgen n ID_COUNTER_START)

/-! ## C5: no protocol-version negotiation -/

/-- A concrete `initialize`-style server response whose echoed protocol
version differs from the requested `LATEST_PROTOCOL_VERSION`. -/
def c5Response : Json :=
  Json.obj [("jsonrpc", .s "2.0"), ("id", .n 1),
    ("result", Json.obj [("protocolVersion", .s "2024-11-05"),
      ("capabilities", Json.obj [("tools", Json.obj [])])])]

/-- C5 counterexample: after building an initialize request for protocol
version 2025-06-18, decoding a response that echoes protocol version
2024-11-05 raises nothing: the client's decode accepts the payload as-is
(only a non-null `error` field raises), so the mismatch is silently
accepted and the capabilities are produced. -/
theorem c5_counterexample :
    (makeInitializeRequest "graphql-agent" "0.1.0" none
        LATEST_PROTOCOL_VERSION).params.get "protocolVersion" = some (.s "2025-06-18") ∧
    resultProtocolVersion c5Response = some (.s "2024-11-05") ∧
    "2024-11-05" ≠ LATEST_PROTOCOL_VERSION ∧
    rpcCallResult (.ok c5Response) = .ok c5Response ∧
    mcpDiscover (.ok c5Response) = .ok c5Response :=
  ⟨rfl, rfl, by decide, rfl, rfl⟩

/-- C5 (amended): the codec performs no protocol-version comparison at
all — every response payload without a non-null `error` field is decoded
successfully and returned unchanged, even when the protocol version it
echoes differs from the requested one; a mismatch is silently accepted
and still yields the response's capabilities. -/
theorem c5_no_version_check (payload : Json) (requested echoed : String)
    (herr : payload.get "error" = none)
    (hecho : resultProtocolVersion payload = some (.s echoed))
    (hne : echoed ≠ requested) :
    rpcCallResult (.ok payload) = .ok payload ∧
    mcpDiscover (.ok payload) = .ok payload := by
  have h1 : rpcCallResult (.ok payload) = .ok payload := by
    show (match payload.get "error" with
      | some Json.null => Except.ok payload
      | some e => Except.error (CallError.mcpError e)
      | none => Except.ok payload) = Except.ok payload
    rw [herr]
  refine ⟨h1, ?_⟩
  unfold mcpDiscover
  rw [h1]

/-- Witness for C5 (amended) at the concrete mismatching response. -/
theorem c5_no_version_check_witness :
    c5Response.get "error" = none ∧
    resultProtocolVersion c5Response = some (.s "2024-11-05") ∧
    "2024-11-05" ≠ LATEST_PROTOCOL_VERSION ∧
    (rpcCallResult (.ok c5Response) = .ok c5Response ∧
     mcpDiscover (.ok c5Response) = .ok c5Response) :=
  ⟨rfl, rfl, by decide,
    c5_no_version_check c5Response LATEST_PROTOCOL_VERSION "2024-11-05" rfl rfl (by decide)⟩

/-! ## C6: credential handling -/

/-- C6 counterexample: a client wired by `ApplicationState` with the
settings token sends exactly one `Authorization` header — there is no
secondary header duplicating it — and the credential is stored on the
client at construction rather than supplied per call. -/
theorem c6_counterexample :
    serviceHeaders (appStateClient ⟨some "token123"⟩ "http://mcp.example/") =
      [("Authorization", "Bearer token123")] ∧
    (serviceHeaders (appStateClient ⟨some "token123"⟩ "http://mcp.example/")).length = 1 ∧
    (appStateClient ⟨some "token123"⟩ "http://mcp.example/").auth_token = some "token123" :=
  ⟨rfl, rfl, rfl⟩

/-- C6 (amended): every request of a client constructed with a non-empty
settings token carries the single header
`Authorization: Bearer <token>` — no secondary header — and the token is
cached in the client's `auth_token` attribute at construction time, not
passed per invocation. -/
theorem c6_credential_cached_single_header (url tok : String) (settings : Settings)
    (h : tok ≠ "") (hs : settings.api_auth_token = some tok) :
    serviceHeaders (appStateClient settings url) = [("Authorization", "Bearer " ++ tok)] ∧
    (appStateClient settings url).auth_token = some tok := by
  have h1 : appStateClient settings url = ⟨rstripSlash url, some tok⟩ := by
    unfold appStateClient initServiceClient
    rw [hs]
  rw [h1]
  constructor
  · show (if tok = "" then ([] : List (String × String))
      else [("Authorization", "Bearer " ++ tok)]) = [("Authorization", "Bearer " ++ tok)]
    exact if_neg h
  · rfl

/-- Witness for C6 (amended) at a concrete token. -/
theorem c6_credential_cached_single_header_witness :
    ("token123" : String) ≠ "" ∧
    (Settings.mk (some "token123")).api_auth_token = some "token123" ∧
    (serviceHeaders (appStateClient ⟨some "token123"⟩ "http://mcp.example") =
      [("Authorization", "Bearer " ++ "token123")] ∧
     (appStateClient ⟨some "token123"⟩ "http://mcp.example").auth_token = some "token123") :=
  ⟨by decide, rfl,
    c6_credential_cached_single_header "http://mcp.example" "token123" ⟨some "token123"⟩
      (by decide) rfl⟩

/-! ## C3: the single-flight invariant -/

theorem resolveInv_init (discovered : List String) (n : Nat) :
    ResolveInv discovered (initResolveSystem n) := by
  refine ⟨?_, ?_, ?_, ?_, ?_, ?_, ?_⟩
  · exact Nat.zero_le 1
  · intro h; cases h
  · intro i hi
    rcases hi with h | h <;> simp [initResolveSystem] at h
  · intro i h
    simp [initResolveSystem] at h
  · intro i h
    simp [initResolveSystem] at h
  · intro i v h
    simp [initResolveSystem] at h
  · intro _
    exact Or.inr rfl

theorem resolveInv_step {discovered : List String} {n : Nat}
    {s s' : ResolveSystem n} (hs : ResolveInv discovered s)
    (hstep : ResolveStep discovered s s') : ResolveInv discovered s' := by
  cases hstep with
  | fastPathHit i hph hld =>
    refine ⟨hs.loadCalls_le, hs.loaded_tools, ?_, ?_, ?_, ?_, ?_⟩
    · intro j hj
      by_cases hji : j = i
      · subst hji
        simp only [Function.update_same] at hj
        rcases hj with h | h <;> cases h
      · simp only [Function.update_noteq hji] at hj
        exact hs.lock_of_phase j hj
    · intro j hj
      by_cases hji : j = i
      · subst hji
        simp only [Function.update_same] at hj
        cases hj
      · simp only [Function.update_noteq hji] at hj
        exact hs.loading_unloaded j hj
    · intro j hj
      by_cases hji : j = i
      · subst hji
        simp only [Function.update_same] at hj
        cases hj
      · simp only [Function.update_noteq hji] at hj
        exact hs.unlocked_loaded j hj
    · intro j v hj
      by_cases hji : j = i
      · subst hji
        simp only [Function.update_same] at hj
        cases hj
        exact hs.loaded_tools hld
      · simp only [Function.update_noteq hji] at hj
        exact hs.done_val j v hj
    · intro hf
      have hf' : s.shared.schema_loaded = false := hf
      rw [hld] at hf'
      cases hf'
  | fastPathMiss i hph hld =>
    refine ⟨hs.loadCalls_le, hs.loaded_tools, ?_, ?_, ?_, ?_, ?_⟩
    · intro j hj
      by_cases hji : j = i
      · subst hji
        simp only [Function.update_same] at hj
        rcases hj with h | h <;> cases h
      · simp only [Function.update_noteq hji] at hj
        exact hs.lock_of_phase j hj
    · intro j hj
      by_cases hji : j = i
      · subst hji
        simp only [Function.update_same] at hj
        cases hj
      · simp only [Function.update_noteq hji] at hj
        exact hs.loading_unloaded j hj
    · intro j hj
      by_cases hji : j = i
      · subst hji
        simp only [Function.update_same] at hj
        cases hj
      · simp only [Function.update_noteq hji] at hj
        exact hs.unlocked_loaded j hj
    · intro j v hj
      by_cases hji : j = i
      · subst hji
        simp only [Function.update_same] at hj
        cases hj
      · simp only [Function.update_noteq hji] at hj
        exact hs.done_val j v hj
    · intro hf
      have hf' : s.shared.schema_loaded = false := hf
      rcases hs.calls_zero hf' with ⟨j, hj⟩ | hz
      · left
        have hji : j ≠ i := by
          intro hcon
          subst hcon
          rw [hph] at hj
          cases hj
        exact ⟨j, by simp only [Function.update_noteq hji]; exact hj⟩
      · exact Or.inr hz
  | acquireLock i hph hlk =>
    refine ⟨hs.loadCalls_le, hs.loaded_tools, ?_, ?_, ?_, ?_, ?_⟩
    · intro j hj
      by_cases hji : j = i
      · subst hji
        rfl
      · simp only [Function.update_noteq hji] at hj
        have := hs.lock_of_phase j hj
        rw [hlk] at this
        cases this
    · intro j hj
      by_cases hji : j = i
      · subst hji
        simp only [Function.update_same] at hj
        cases hj
      · simp only [Function.update_noteq hji] at hj
        exact hs.loading_unloaded j hj
    · intro j hj
      by_cases hji : j = i
      · subst hji
        simp only [Function.update_same] at hj
        cases hj
      · simp only [Function.update_noteq hji] at hj
        exact hs.unlocked_loaded j hj
    · intro j v hj
      by_cases hji : j = i
      · subst hji
        simp only [Function.update_same] at hj
        cases hj
      · simp only [Function.update_noteq hji] at hj
        exact hs.done_val j v hj
    · intro hf
      have hf' : s.shared.schema_loaded = false := hf
      rcases hs.calls_zero hf' with ⟨j, hj⟩ | hz
      · left
        have hji : j ≠ i := by
          intro hcon
          subst hcon
          rw [hph] at hj
          cases hj
        exact ⟨j, by simp only [Function.update_noteq hji]; exact hj⟩
      · exact Or.inr hz
  | recheckLoaded i hph hld =>
    refine ⟨hs.loadCalls_le, hs.loaded_tools, ?_, ?_, ?_, ?_, ?_⟩
    · intro j hj
      by_cases hji : j = i
      · subst hji
        simp only [Function.update_same] at hj
        rcases hj with h | h <;> cases h
      · simp only [Function.update_noteq hji] at hj
        have hj' := hs.lock_of_phase j hj
        have hi' := hs.lock_of_phase i (Or.inl hph)
        rw [hj'] at hi'
        have hvij : j.val = i.val := by
          injection hi'
        exact absurd (Fin.ext hvij) hji
    · intro j hj
      by_cases hji : j = i
      · subst hji
        simp only [Function.update_same] at hj
        cases hj
      · simp only [Function.update_noteq hji] at hj
        have := hs.loading_unloaded j hj
        rw [hld] at this
        cases this
    · intro j hj
      exact hld
    · intro j v hj
      by_cases hji : j = i
      · subst hji
        simp only [Function.update_same] at hj
        cases hj
      · simp only [Function.update_noteq hji] at hj
        exact hs.done_val j v hj
    · intro hf
      have hf' : s.shared.schema_loaded = false := hf
      rw [hld] at hf'
      cases hf'
  | recheckUnloaded i hph hld =>
    have hnoload : ∀ j : Fin n, s.caller j ≠ .loading := by
      intro j hj
      have hj' := hs.lock_of_phase j (Or.inr hj)
      have hi' := hs.lock_of_phase i (Or.inl hph)
      rw [hj'] at hi'
      have hji : j = i := by
        injection hi' with h
        exact Fin.ext h
      subst hji
      rw [hph] at hj
      cases hj
    have hz : s.shared.loadCalls = 0 := by
      rcases hs.calls_zero hld with ⟨j, hj⟩ | hz
      · exact absurd hj (hnoload j)
      · exact hz
    refine ⟨?_, hs.loaded_tools, ?_, ?_, ?_, ?_, ?_⟩
    · show s.shared.loadCalls + 1 ≤ 1
      omega
    · intro j hj
      by_cases hji : j = i
      · subst hji
        exact hs.lock_of_phase j (Or.inl hph)
      · simp only [Function.update_noteq hji] at hj
        exact hs.lock_of_phase j hj
    · intro j hj
      exact hld
    · intro j hj
      by_cases hji : j = i
      · subst hji
        simp only [Function.update_same] at hj
        cases hj
      · simp only [Function.update_noteq hji] at hj
        exact hs.unlocked_loaded j hj
    · intro j v hj
      by_cases hji : j = i
      · subst hji
        simp only [Function.update_same] at hj
        cases hj
      · simp only [Function.update_noteq hji] at hj
        exact hs.done_val j v hj
    · intro _
      left
      exact ⟨i, by simp only [Function.update_same]⟩
  | finishLoad i hph =>
    refine ⟨hs.loadCalls_le, ?_, ?_, ?_, ?_, ?_, ?_⟩
    · intro _
      rfl
    · intro j hj
      by_cases hji : j = i
      · subst hji
        simp only [Function.update_same] at hj
        rcases hj with h | h <;> cases h
      · simp only [Function.update_noteq hji] at hj
        have hj' := hs.lock_of_phase j hj
        have hi' := hs.lock_of_phase i (Or.inr hph)
        rw [hj'] at hi'
        have hvij : j.val = i.val := by
          injection hi'
        exact absurd (Fin.ext hvij) hji
    · intro j hj
      by_cases hji : j = i
      · subst hji
        simp only [Function.update_same] at hj
        cases hj
      · simp only [Function.update_noteq hji] at hj
        have hj' := hs.lock_of_phase j (Or.inr hj)
        have hi' := hs.lock_of_phase i (Or.inr hph)
        rw [hj'] at hi'
        have hvij : j.val = i.val := by
          injection hi'
        exact absurd (Fin.ext hvij) hji
    · intro j hj
      rfl
    · intro j v hj
      by_cases hji : j = i
      · subst hji
        simp only [Function.update_same] at hj
        cases hj
      · simp only [Function.update_noteq hji] at hj
        exact hs.done_val j v hj
    · intro hf
      have hf' : (true : Bool) = false := hf
      cases hf'
  | returnCached i hph =>
    refine ⟨hs.loadCalls_le, hs.loaded_tools, ?_, ?_, ?_, ?_, ?_⟩
    · intro j hj
      by_cases hji : j = i
      · subst hji
        simp only [Function.update_same] at hj
        rcases hj with h | h <;> cases h
      · simp only [Function.update_noteq hji] at hj
        exact hs.lock_of_phase j hj
    · intro j hj
      by_cases hji : j = i
      · subst hji
        simp only [Function.update_same] at hj
        cases hj
      · simp only [Function.update_noteq hji] at hj
        exact hs.loading_unloaded j hj
    · intro j hj
      by_cases hji : j = i
      · subst hji
        simp only [Function.update_same] at hj
        cases hj
      · simp only [Function.update_noteq hji] at hj
        exact hs.unlocked_loaded j hj
    · intro j v hj
      by_cases hji : j = i
      · subst hji
        simp only [Function.update_same] at hj
        cases hj
        exact hs.loaded_tools (hs.unlocked_loaded j hph)
      · simp only [Function.update_noteq hji] at hj
        exact hs.done_val j v hj
    · intro hf
      have hf' : s.shared.schema_loaded = false := hf
      rw [hs.unlocked_loaded i hph] at hf'
      cases hf'

theorem resolveInv_reachable {discovered : List String} {n : Nat}
    {s : ResolveSystem n} (h : ResolveReachable discovered n s) :
    ResolveInv discovered s := by
  induction h with
  | init => exact resolveInv_init discovered n
  | step _ hstep ih => exact resolveInv_step ih hstep

/-- C3: single-flight capability loading.  In every state reachable under
any interleaving of concurrent callers of `resolved_mcp_tools`, (a) the
network discovery call has been started at most once; (b) every two
callers that have returned received the identical tool-list value;
moreover (c) the `_schema_loaded` flag only ever moves forward (no step
un-loads it) and (d) a caller that sees the flag set completes in its
single fast-path step, returning the cached list while leaving the whole
shared state — the lock included — untouched. -/
theorem c3_single_flight (discovered : List String) (n : Nat) :
    (∀ s : ResolveSystem n, ResolveReachable discovered n s →
      s.shared.loadCalls ≤ 1 ∧
      (∀ (i j : Fin n) (v w : List String),
        s.caller i = .done v → s.caller j = .done w → v = w)) ∧
    (∀ s s' : ResolveSystem n, ResolveStep discovered s s' →
      s.shared.schema_loaded = true → s'.shared.schema_loaded = true) ∧
    (∀ (s : ResolveSystem n) (i : Fin n), s.caller i = .start →
      s.shared.schema_loaded = true →
      ResolveStep discovered s
        { s with caller := Function.update s.caller i (.done s.shared.mcp_tools) }) := by
  refine ⟨?_, ?_, ?_⟩
  · intro s hreach
    have hinv := resolveInv_reachable hreach
    refine ⟨hinv.loadCalls_le, ?_⟩
    intro i j v w hi hj
    rw [hinv.done_val i v hi, hinv.done_val j w hj]
  · intro s s' hstep hld
    cases hstep with
    | fastPathHit i hph h => exact hld
    | fastPathMiss i hph h => exact hld
    | acquireLock i hph h => exact hld
    | recheckLoaded i hph h => exact hld
    | recheckUnloaded i hph h => exact hld
    | finishLoad i hph => rfl
    | returnCached i hph => exact hld
  · intro s i h1 h2
    exact ResolveStep.fastPathHit s i h1 h2

/-- A concrete loaded state with one caller about to take the fast path. -/
def c3WitnessState : ResolveSystem 1 :=
  { shared := { mcp_tools := ["toolA"], schema_loaded := true, lockHeld := none, loadCalls := 1 }
    caller := fun _ => .start }

/-- Witness for C3 at concrete inputs: the initial state is reachable and
satisfies the single-flight bound, and the fast-path step exists from a
concrete loaded state. -/
theorem c3_single_flight_witness :
    (initResolveSystem 1).shared.loadCalls ≤ 1 ∧
    c3WitnessState.caller 0 = .start ∧
    c3WitnessState.shared.schema_loaded = true ∧
    ResolveStep ["toolA"] c3WitnessState
      { c3WitnessState with
        caller := Function.update c3WitnessState.caller 0
          (.done c3WitnessState.shared.mcp_tools) } :=
  ⟨((c3_single_flight ["toolA"] 1).1 (initResolveSystem 1) ResolveReachable.init).1,
   rfl, rfl, (c3_single_flight ["toolA"] 1).2.2 c3WitnessState 0 rfl rfl⟩

end AgenticGraphQL
